import Mathlib

/-!
Verification of the Pakistan vACC session-tracking core.

Shallow embedding of the TypeScript sources:
* the cache/session reconciliation engine (lib/cache.ts: updateSessions,
  getAggregatedStats, saveSessionToDatabase),
* the statistics recomputation used by the synchronizer and the stats API
  route (scripts/sync_db_to_cache.ts, app/api/stats route),
* the roster last-callsign logic (lib/roster.ts: findLastNonAtisCallsign,
  updateMemberFromLive),
* the database-side staleness sweep of the secondary ingest path
  (scripts/backfill_atc.ts second script, runOnce),
* the live poll loop (collector script runOnce / while-true loop).

Timestamps are modelled as naturals counting milliseconds since the Unix
epoch (the source stores ISO-8601 strings and compares epoch milliseconds
obtained from Date.getTime()).  JavaScript number arithmetic on these
quantities is exact (values are far below 2^53), so Nat is a faithful
carrier; where the source may produce a negative difference the surrounding
Math.max(1, ...) clamp makes truncated Nat subtraction produce the same
final value, as noted at the definitions concerned.
-/

namespace PakVacc

/-- Category of a tracked session: the source's "controller" | "pilot". -/
inductive SType where
  | controller
  | pilot
deriving DecidableEq, Repr

/-- JavaScript str.endsWith(pat): the last pat.length characters equal pat. -/
def endsWithStr (s pat : String) : Bool :=
  s.data.drop (s.data.length - pat.data.length) == pat.data

/-- JavaScript str.startsWith(pat). -/
def startsWithStr (s pat : String) : Bool :=
  s.data.take pat.data.length == pat.data

/-- JavaScript str.toUpperCase() restricted to its action on the ASCII
callsigns at hand: character-wise upper-casing of the underlying list. -/
def upperData (s : String) : List Char :=
  s.data.map Char.toUpper

/-- The pseudo-session (ATIS) test used throughout the cache and roster code:
callsign.toUpperCase().endsWith("_ATIS"). -/
def atisSuffix (cs : String) : Bool :=
  (upperData cs).drop ((upperData cs).length - 5) == "_ATIS".data

/-- Math.round(d / 60000) for a nonnegative integer d of milliseconds:
JavaScript rounds half away from zero upward, i.e. floor(d/60000 + 1/2). -/
def jsRoundMinutes (d : Nat) : Nat :=
  (d + 30000) / 60000

/-- Duration clamp shared by every closure site:
Math.max(1, Math.round((endMs - startMs) / 60000)).  With Nat truncated
subtraction a clock-skewed negative difference becomes 0 and the clamp
yields 1, exactly as the JavaScript expression does. -/
def durationClamp (startMs endMs : Nat) : Nat :=
  max 1 (jsRoundMinutes (endMs - startMs))

/-- Milliseconds per UTC day. -/
def msPerDay : Nat := 86400000

/-- Calendar date, the semantic content of the source's "YYYY-MM-DD" strings
(obtained there as isoTimestamp.slice(0, 10)). -/
structure Ymd where
  year : Nat
  month : Nat
  day : Nat
deriving DecidableEq, Repr

/-- Proleptic-Gregorian civil date from a day count since 1970-01-01 (UTC),
the standard era-based conversion; models isoTimestamp.slice(0, 10). -/
def civilFromDays (z : Nat) : Ymd :=
  let z' := z + 719468
  let era := z' / 146097
  let doe := z' % 146097
  let yoe := (doe - doe / 1460 + doe / 36524 - doe / 146097) / 365
  let y := yoe + era * 400
  let doy := doe - (365 * yoe + yoe / 4 - yoe / 100)
  let mp := (5 * doy + 2) / 153
  let d := doy - (153 * mp + 2) / 5 + 1
  if mp < 10 then
    { year := y, month := mp + 3, day := d }
  else
    { year := y + 1, month := mp - 9, day := d }

/-- Inverse of civilFromDays for dates on or after 1970-01-01; used to model
the week-start arithmetic of the aggregator. -/
def daysFromCivil (c : Ymd) : Nat :=
  let y := if c.month ≤ 2 then c.year - 1 else c.year
  let era := y / 400
  let yoe := y % 400
  let mp := if 2 < c.month then c.month - 3 else c.month + 9
  let doy := (153 * mp + 2) / 5 + c.day - 1
  let doe := yoe * 365 + yoe / 4 - yoe / 100 + doy
  era * 146097 + doe - 719468

/-- UTC calendar date of an epoch-millisecond timestamp. -/
def dateOfMs (t : Nat) : Ymd :=
  civilFromDays (t / msPerDay)

/-- CachedSession of lib/cache.ts: one open session in the ephemeral
session store.  Optional attribute fields are Option, mirroring the
TypeScript optional properties. -/
structure CachedSession where
  id : String
  stype : SType
  cid : Nat
  name : String
  callsign : String
  frequency : Option String := none
  facility : Option String := none
  departure : Option String := none
  arrival : Option String := none
  aircraft : Option String := none
  startTime : Nat
  lastSeen : Nat
deriving DecidableEq, Repr

/-- HistoricalSession of lib/cache.ts: a closed session in the history
store.  removedAt is set only on the copies returned in the removed list. -/
structure HistoricalSession where
  id : String
  stype : SType
  cid : Nat
  name : String
  callsign : String
  frequency : Option String := none
  facility : Option String := none
  departure : Option String := none
  arrival : Option String := none
  aircraft : Option String := none
  startTime : Nat
  endTime : Nat
  durationMinutes : Nat
  date : Ymd
  removedAt : Option Nat := none
deriving DecidableEq, Repr

/-- Denormalized counters carried in the history cache file. -/
structure HistoryStats where
  totalControllerMinutes : Nat
  totalPilotMinutes : Nat
  totalControllerSessions : Nat
  totalPilotSessions : Nat
deriving DecidableEq, Repr

/-- History cache document (lastUpdated, being a wall-clock write stamp
consulted by no claim, is not carried). -/
structure HistoryCache where
  sessions : List HistoricalSession
  stats : HistoryStats
deriving DecidableEq, Repr

/-- The session store's Record<string, CachedSession>, modelled as an
insertion-ordered association list, matching JavaScript object key order:
new keys are appended, updates keep position. -/
abbrev SessionList := List (String × CachedSession)

/-- First value bound to a key, as JavaScript property lookup. -/
def alLookup (l : SessionList) (k : String) : Option CachedSession :=
  (l.find? (fun kv => kv.1 == k)).map Prod.snd

/-- sessionCache.sessions[id].lastSeen = nowIso: in-place update of the
bound value, keeping the key's position. -/
def alSetLastSeen (l : SessionList) (k : String) (now : Nat) : SessionList :=
  l.map (fun kv => if kv.1 == k then (kv.1, { kv.2 with lastSeen := now }) else kv)

/-- One row of the currentControllers argument of updateSessions. -/
structure ControllerEntry where
  cid : Nat
  name : String
  callsign : String
  frequency : String
  facility : String
deriving DecidableEq, Repr

/-- One row of the currentPilots argument of updateSessions. -/
structure PilotEntry where
  cid : Nat
  name : String
  callsign : String
  departure : String
  arrival : String
  aircraft : String
deriving DecidableEq, Repr

/-- Session-store key for a controller row. -/
def atcKey (callsign : String) : String := "atc-" ++ callsign

/-- Session-store key for a pilot row. -/
def pilotKey (callsign : String) : String := "pilot-" ++ callsign

/-- Entry pushed onto the added list: the source pushes a display string for
controllers and a message/timestamp object for pilots; one event per newly
created session either way. -/
inductive AddedEvent where
  | controllerMsg (text : String)
  | pilotMsg (text : String) (timestamp : Nat)
deriving DecidableEq, Repr

/-- The seenIds set built during the snapshot pass: every observed row's key
is added before any branch is taken. -/
def seenIds (cs : List ControllerEntry) (ps : List PilotEntry) : List String :=
  cs.map (fun c => atcKey c.callsign) ++ ps.map (fun p => pilotKey p.callsign)

/-- Fresh controller session created on first sight.  The snapshot-pass
steps below create these on a missing key, otherwise refresh lastSeen only;
the roster side effects (addMemberToRoster / updateMemberFromLive /
updateMemberLastSeen) are fire-and-forget calls on a separate store,
modelled by the roster functions further below. -/
def newControllerSession (now : Nat) (c : ControllerEntry) : CachedSession :=
  { id := atcKey c.callsign, stype := .controller, cid := c.cid, name := c.name,
    callsign := c.callsign, frequency := some c.frequency,
    facility := some c.facility, startTime := now, lastSeen := now }

/-- Fresh pilot session created on first sight. -/
def newPilotSession (now : Nat) (p : PilotEntry) : CachedSession :=
  { id := pilotKey p.callsign, stype := .pilot, cid := p.cid, name := p.name,
    callsign := p.callsign, departure := some p.departure,
    arrival := some p.arrival, aircraft := some p.aircraft,
    startTime := now, lastSeen := now }

def stepController (now : Nat) (st : SessionList × List AddedEvent)
    (c : ControllerEntry) : SessionList × List AddedEvent :=
  match alLookup st.1 (atcKey c.callsign) with
  | none =>
      (st.1 ++ [(atcKey c.callsign, newControllerSession now c)],
       st.2 ++ [.controllerMsg ("🎧 " ++ c.callsign ++ " (" ++ c.name ++ ")")])
  | some _ =>
      (alSetLastSeen st.1 (atcKey c.callsign) now, st.2)

/-- Snapshot-pass step for one pilot row, mirroring the controller case. -/
def stepPilot (now : Nat) (st : SessionList × List AddedEvent)
    (p : PilotEntry) : SessionList × List AddedEvent :=
  match alLookup st.1 (pilotKey p.callsign) with
  | none =>
      (st.1 ++ [(pilotKey p.callsign, newPilotSession now p)],
       st.2 ++ [.pilotMsg ("✈️ " ++ p.callsign ++ " (" ++ p.departure ++ "→" ++ p.arrival ++ ")") now])
  | some _ =>
      (alSetLastSeen st.1 (pilotKey p.callsign) now, st.2)

/-- Both snapshot passes of updateSessions: controllers first, then pilots. -/
def snapshotPass (cs : List ControllerEntry) (ps : List PilotEntry) (now : Nat)
    (sc : SessionList) : SessionList × List AddedEvent :=
  ps.foldl (stepPilot now) (cs.foldl (stepController now) (sc, []))

/-- The 2-minute stale threshold of the live reconciliation path. -/
def staleThreshold : Nat := 2 * 60 * 1000

/-- Should this session-store entry be closed this cycle?  It must be absent
from the snapshot and last seen strictly more than the threshold ago (Nat
truncated subtraction yields 0, hence keep, if lastSeen is in the future,
as does the signed JavaScript comparison). -/
def closeTest (now : Nat) (seen : List String) (kv : String × CachedSession) : Bool :=
  !seen.contains kv.1 && decide (staleThreshold < now - kv.2.lastSeen)

/-- HistoricalSession built at closure: endTime is the session's lastSeen
(not the current time), the duration is the clamped rounded span, and the
date is the UTC date of startTime (startTime.slice(0, 10) in the source). -/
def closeSession (s : CachedSession) : HistoricalSession :=
  { id := s.id ++ "-" ++ toString s.startTime, stype := s.stype, cid := s.cid,
    name := s.name, callsign := s.callsign, frequency := s.frequency,
    facility := s.facility, departure := s.departure, arrival := s.arrival,
    aircraft := s.aircraft, startTime := s.startTime, endTime := s.lastSeen,
    durationMinutes := durationClamp s.startTime s.lastSeen,
    date := dateOfMs s.startTime }

/-- Copy of a closure pushed onto the removed list, stamped removedAt=now. -/
def closeRemoved (now : Nat) (s : CachedSession) : HistoricalSession :=
  { closeSession s with removedAt := some now }

/-- Stats update at closure: ATIS controller sessions contribute neither
minutes nor a session count; pilots always count. -/
def bumpStats (st : HistoryStats) (s : CachedSession) : HistoryStats :=
  match s.stype with
  | .controller =>
      if atisSuffix s.callsign then st
      else { st with
        totalControllerMinutes := st.totalControllerMinutes + durationClamp s.startTime s.lastSeen,
        totalControllerSessions := st.totalControllerSessions + 1 }
  | .pilot =>
      { st with
        totalPilotMinutes := st.totalPilotMinutes + durationClamp s.startTime s.lastSeen,
        totalPilotSessions := st.totalPilotSessions + 1 }

/-- Staleness sweep of updateSessions over Object.entries of the session
store: stale absent entries are closed (history unshift, stats bump, removed
push, delete from the store), everything else is kept in place.  The
per-closure updateMemberStats and saveSessionToDatabase calls are
fire-and-forget effects on other stores, modelled by their own functions. -/
def closeStep (now : Nat) (seen : List String)
    (acc : SessionList × HistoryCache × List HistoricalSession)
    (kv : String × CachedSession) :
    SessionList × HistoryCache × List HistoricalSession :=
  if closeTest now seen kv then
    (acc.1,
     { sessions := closeSession kv.2 :: acc.2.1.sessions,
       stats := bumpStats acc.2.1.stats kv.2 },
     acc.2.2 ++ [closeRemoved now kv.2])
  else
    (acc.1 ++ [kv], acc.2.1, acc.2.2)

def closePass (now : Nat) (seen : List String) (entries : SessionList)
    (hc : HistoryCache) : SessionList × HistoryCache × List HistoricalSession :=
  entries.foldl (closeStep now seen)
    (([] : SessionList), hc, ([] : List HistoricalSession))

/-- The store key the engine files a session under: every entry the engine
creates satisfies kv.1 = sessionKey kv.2, an invariant of reachable
session-store states. -/
def sessionKey (s : CachedSession) : String :=
  match s.stype with
  | .controller => atcKey s.callsign
  | .pilot => pilotKey s.callsign

/-- Retention cap: keep only the first (most recent) 1000 history entries. -/
def capHistory (hc : HistoryCache) : HistoryCache :=
  if 1000 < hc.sessions.length then { hc with sessions := hc.sessions.take 1000 } else hc

/-- Result of one updateSessions cycle. -/
structure UpdateResult where
  sessionCache : SessionList
  history : HistoryCache
  added : List AddedEvent
  removed : List HistoricalSession
deriving DecidableEq, Repr

/-- updateSessions of lib/cache.ts: snapshot passes, staleness sweep, cap. -/
def updateSessions (cs : List ControllerEntry) (ps : List PilotEntry)
    (now : Nat) (sc : SessionList) (hc : HistoryCache) : UpdateResult :=
  let seen := seenIds cs ps
  let afterSnapshot := snapshotPass cs ps now sc
  let swept := closePass now seen afterSnapshot.1 hc
  { sessionCache := swept.1,
    history := capHistory swept.2.1,
    added := afterSnapshot.2,
    removed := swept.2.2 }

/-- The statistics recomputation used verbatim at three sites: the
synchronizer's "Recalculating stats" block, the stats API route's
"Recalculate totals excluding ATIS" block and the live route's equivalent
block: filtered sums and counts over the stored session list, with ATIS
controller sessions excluded and pilots always included. -/
def statsFold (l : List HistoricalSession) : HistoryStats :=
  { totalControllerMinutes :=
      (l.filter (fun s => s.stype == .controller && !atisSuffix s.callsign)).foldl
        (fun sum s => sum + s.durationMinutes) 0,
    totalPilotMinutes :=
      (l.filter (fun s => s.stype == .pilot)).foldl
        (fun sum s => sum + s.durationMinutes) 0,
    totalControllerSessions :=
      (l.filter (fun s => s.stype == .controller && !atisSuffix s.callsign)).length,
    totalPilotSessions :=
      (l.filter (fun s => s.stype == .pilot)).length }

/-- groupBy argument of getAggregatedStats. -/
inductive GroupBy where
  | day
  | week
  | month
  | year
deriving DecidableEq, Repr

/-- Period key of one aggregation bucket; the source renders these as
strings (the full date, the Monday's date, "YYYY-MM", "YYYY"), each an
injective, order-preserving encoding of the data carried here. -/
inductive PeriodKey where
  | onDay (d : Ymd)
  | onWeek (mondayDays : Nat)
  | onMonth (year month : Nat)
  | onYear (y : Nat)
deriving DecidableEq, Repr

/-- Period key of a session date: day keeps the date; week moves back to
Monday (getDay() is 0 on Sunday; day 0 of the epoch count was a Thursday,
and the source's setDate arithmetic normalizes across month bounds exactly
as day-number arithmetic does, evaluated here in UTC); month and year
truncate the date string. -/
def periodKey (g : GroupBy) (d : Ymd) : PeriodKey :=
  match g with
  | .day => .onDay d
  | .week =>
      let z := daysFromCivil d
      let wd := (z + 4) % 7
      .onWeek (z - ((wd + 6) % 7))
  | .month => .onMonth d.year d.month
  | .year => .onYear d.year

/-- One aggregation bucket. -/
structure PeriodBucket where
  controllerMinutes : Nat
  controllerSessions : Nat
  pilotMinutes : Nat
  pilotSessions : Nat
deriving DecidableEq, Repr

/-- Contribution of one session to its bucket: ATIS controller sessions are
skipped entirely ("no hours, no sessions"), pilots always counted. -/
def bucketUpdate (b : PeriodBucket) (s : HistoricalSession) : PeriodBucket :=
  match s.stype with
  | .controller =>
      if atisSuffix s.callsign then b
      else { b with controllerMinutes := b.controllerMinutes + s.durationMinutes,
                    controllerSessions := b.controllerSessions + 1 }
  | .pilot =>
      { b with pilotMinutes := b.pilotMinutes + s.durationMinutes,
               pilotSessions := b.pilotSessions + 1 }

/-- One loop iteration of getAggregatedStats: the bucket for the session's
period is created (zeroed) before the category test, then updated. -/
def groupStep (g : GroupBy) (acc : List (PeriodKey × PeriodBucket))
    (s : HistoricalSession) : List (PeriodKey × PeriodBucket) :=
  let k := periodKey g s.date
  let acc1 := if (acc.find? (fun kb => kb.1 == k)).isSome then acc
              else acc ++ [(k, ⟨0, 0, 0, 0⟩)]
  acc1.map (fun kb => if kb.1 == k then (kb.1, bucketUpdate kb.2 s) else kb)

/-- Ascending comparison matching localeCompare on the rendered period
strings (only keys of one shape arise within a single call). -/
def periodLe : PeriodKey → PeriodKey → Bool
  | .onDay a, .onDay b =>
      a.year < b.year || (a.year == b.year &&
        (a.month < b.month || (a.month == b.month && a.day ≤ b.day)))
  | .onWeek a, .onWeek b => a ≤ b
  | .onMonth y1 m1, .onMonth y2 m2 => y1 < y2 || (y1 == y2 && m1 ≤ m2)
  | .onYear a, .onYear b => a ≤ b
  | _, _ => true

/-- Stable ascending insertion of one element: it goes after every element
already ≤ it. -/
def insertSorted (le : PeriodKey × PeriodBucket → PeriodKey × PeriodBucket → Bool)
    (x : PeriodKey × PeriodBucket) :
    List (PeriodKey × PeriodBucket) → List (PeriodKey × PeriodBucket)
  | [] => [x]
  | y :: ys => if le y x then y :: insertSorted le x ys else x :: y :: ys

/-- Stable ascending sort (the source's Array.sort with a localeCompare
comparator is a stable ascending sort; every stable sort computes the same
list for a total comparison, as the one used here is within one call). -/
def sortByPeriod (l : List (PeriodKey × PeriodBucket)) :
    List (PeriodKey × PeriodBucket) :=
  l.foldl (fun acc x => insertSorted (fun a b => periodLe a.1 b.1) x acc) []

/-- getAggregatedStats of lib/cache.ts: bucket the history by period and
sort ascending by period. -/
def getAggregatedStats (g : GroupBy) (history : List HistoricalSession) :
    List (PeriodKey × PeriodBucket) :=
  sortByPeriod (history.foldl (groupStep g) [])

/-- ControllerSession row of the durable store, as created by
saveSessionToDatabase / the backfill scripts (name is a nullable column the
live create does not set). -/
structure DbControllerSession where
  cid : Option Nat
  name : Option String := none
  callsign : String
  fir : Option String
  start : Nat
  endT : Nat
  minutes : Nat
deriving DecidableEq, Repr

/-- PilotSession row of the durable store. -/
structure DbPilotSession where
  cid : Option Nat
  callsign : String
  name : Option String := none
  dep : Option String := none
  arr : Option String := none
  aircraft : Option String := none
  fir : Option String := none
  inPakistan : Bool
  start : Nat
  endT : Nat
  minutes : Nat
deriving DecidableEq, Repr

/-- A durable-store insert fired by a closure path. -/
inductive DbWrite where
  | controllerRow (r : DbControllerSession)
  | pilotRow (r : DbPilotSession)
deriving DecidableEq, Repr

/-- JavaScript x || null on an optional string: undefined and "" become
null. -/
def optOrNull (o : Option String) : Option String :=
  match o with
  | some x => if x == "" then none else some x
  | none => none

/-- saveSessionToDatabase of lib/cache.ts as a function from the session and
the environment (DATABASE_URL configured, connection test outcome) to the
insert it fires, none when it returns without inserting.  ATIS controller
sessions are skipped before any insert. -/
def saveSessionToDatabase (dbConfigured connectOk : Bool)
    (s : HistoricalSession) : Option DbWrite :=
  if !dbConfigured then none
  else if !connectOk then none
  else match s.stype with
  | .controller =>
      if atisSuffix s.callsign then none
      else some (.controllerRow
        { cid := if s.cid == 0 then none else some s.cid,
          callsign := s.callsign,
          fir := if startsWithStr s.callsign "OPKR_" then some "OPKR"
                 else if startsWithStr s.callsign "OPLR_" then some "OPLR" else none,
          start := s.startTime, endT := s.endTime, minutes := s.durationMinutes })
  | .pilot =>
      some (.pilotRow
        { cid := if s.cid == 0 then none else some s.cid,
          callsign := s.callsign,
          name := optOrNull (some s.name),
          dep := optOrNull s.departure,
          arr := optOrNull s.arrival,
          aircraft := optOrNull s.aircraft,
          fir := none,
          inPakistan :=
            (match s.departure with
             | some d => startsWithStr d "OP"
             | none => false)
            || (match s.arrival with
                | some a => startsWithStr a "OP"
                | none => false),
          start := s.startTime, endT := s.endTime, minutes := s.durationMinutes })

/-- OpenSession row of the durable store used by the secondary ingest path. -/
structure OpenSessionRow where
  role : SType
  callsign : String
  cid : Option Nat
  fir : Option String := none
  dep : Option String := none
  arr : Option String := none
  inPakistan : Bool := false
  startedAt : Nat
  lastSeenAt : Nat
deriving DecidableEq, Repr

/-- Closure of one stale OpenSession row in the secondary (database-side)
ingest path: end = lastSeenAt and the same clamped rounded duration. -/
def closeStaleOpenSession (s : OpenSessionRow) : DbWrite :=
  match s.role with
  | .controller =>
      .controllerRow
        { cid := s.cid, callsign := s.callsign, fir := s.fir,
          start := s.startedAt, endT := s.lastSeenAt,
          minutes := durationClamp s.startedAt s.lastSeenAt }
  | .pilot =>
      .pilotRow
        { cid := s.cid, callsign := s.callsign, dep := s.dep, arr := s.arr,
          fir := s.fir, inPakistan := s.inPakistan,
          start := s.startedAt, endT := s.lastSeenAt,
          minutes := durationClamp s.startedAt s.lastSeenAt }

/-- Dedup id of a database controller session in the synchronizer (the
source renders start as an ISO string; rendering the epoch milliseconds is
the same injective key). -/
def syncCtrlId (s : DbControllerSession) : String :=
  "atc-" ++ s.callsign ++ "-" ++ toString s.start

/-- Dedup id of a database pilot session in the synchronizer. -/
def syncPilotId (s : DbPilotSession) : String :=
  "pilot-" ++ s.callsign ++ "-" ++ toString s.start

/-- Cache record built from a database controller session by the
synchronizer. -/
def dbCtrlToHistorical (s : DbControllerSession) : HistoricalSession :=
  { id := syncCtrlId s, stype := .controller,
    cid := s.cid.getD 0, name := s.name.getD "Unknown",
    callsign := s.callsign, facility := optOrNull s.fir,
    startTime := s.start, endTime := s.endT, durationMinutes := s.minutes,
    date := dateOfMs s.start }

/-- Cache record built from a database pilot session by the synchronizer. -/
def dbPilotToHistorical (s : DbPilotSession) : HistoricalSession :=
  { id := syncPilotId s, stype := .pilot,
    cid := s.cid.getD 0, name := s.name.getD "Unknown",
    callsign := s.callsign, departure := optOrNull s.dep,
    arrival := optOrNull s.arr, aircraft := optOrNull s.aircraft,
    startTime := s.start, endTime := s.endT, durationMinutes := s.minutes,
    date := dateOfMs s.start }

/-- The synchronizer's insert loop: rows whose id is already known are
skipped, new rows are unshifted and their id recorded. -/
def syncInsertPhase (rows : List HistoricalSession)
    (st : List HistoricalSession × List String) :
    List HistoricalSession × List String :=
  rows.foldl
    (fun acc r => if acc.2.contains r.id then acc else (r :: acc.1, acc.2 ++ [r.id]))
    st

/-- History portion of syncDatabaseToCache before the retention cap: the
controller query excludes rows whose callsign ends with "_ATIS" (a
case-sensitive Prisma string filter) and both queries return rows ordered
by start descending (the row lists are taken in that order); then the
counters are recomputed by the idempotent fold. -/
def syncMergePhase (dbCtrl : List DbControllerSession)
    (dbPilots : List DbPilotSession) (hc : HistoryCache) : HistoryCache :=
  let ctrlRows := (dbCtrl.filter (fun s => !endsWithStr s.callsign "_ATIS")).map dbCtrlToHistorical
  let p1 := syncInsertPhase ctrlRows (hc.sessions, hc.sessions.map (fun s => s.id))
  let p2 := syncInsertPhase (dbPilots.map dbPilotToHistorical) p1
  { sessions := p2.1, stats := statsFold p2.1 }

/-- syncDatabaseToCache of scripts/sync_db_to_cache.ts (history portion):
merge, recompute counters, then truncate to the 1000 most recent entries
(the truncation happens after the counter recomputation). -/
def syncDatabaseToCache (dbCtrl : List DbControllerSession)
    (dbPilots : List DbPilotSession) (hc : HistoryCache) : HistoryCache :=
  let merged := syncMergePhase dbCtrl dbPilots hc
  if 1000 < merged.sessions.length then
    { merged with sessions := merged.sessions.take 1000 }
  else merged

/-- Roster member record (lib/roster.ts MemberInfo), restricted to the
fields the modelled functions read or write. -/
structure MemberInfo where
  cid : Nat
  name : Option String := none
  rating : Int
  ratingName : String
  pilotRating : Int
  pilotRatingName : String
  subdivision : String
  division : String
  region : String
  lastSeen : Option Nat := none
  lastCallsign : Option String := none
deriving DecidableEq, Repr

/-- findLastNonAtisCallsign of lib/roster.ts: first non-ATIS controller
session of the member among the active sessions, else the first in the
cache history (ordered most recent first), else the most recent matching
database row (the query filters callsign not endsWith "_ATIS", a
case-sensitive Prisma filter, orders by start descending and takes one; the
row list is given in that order); a missing DATABASE_URL or a query error
yields null. -/
def findLastNonAtisCallsign (active : List CachedSession)
    (history : List HistoricalSession) (dbConfigured dbOk : Bool)
    (dbCtrl : List DbControllerSession) (cid : Nat) : Option String :=
  match active.find? (fun s => s.stype == .controller && s.cid == cid && !atisSuffix s.callsign) with
  | some s => some s.callsign
  | none =>
  match history.find? (fun s => s.stype == .controller && s.cid == cid && !atisSuffix s.callsign) with
  | some s => some s.callsign
  | none =>
      if dbConfigured && dbOk then
        match dbCtrl.find? (fun s => s.cid == some cid && !endsWithStr s.callsign "_ATIS") with
        | some s => some s.callsign
        | none => none
      else none

/-- Position words of the name guard in updateMemberFromLive, as upper-cased
character lists (the source tests name.match of an anchored
case-insensitive alternation). -/
def positionPattern : List (List Char) :=
  ["APP", "TWR", "GND", "DEL", "CTR", "FSS", "ATIS"].map String.data

/-- JavaScript-style whitespace test for the trim()-to-empty check. -/
def isJsSpace (c : Char) : Bool :=
  c == ' ' || c == '\t' || c == '\n' || c == '\r'

/-- Body of updateMemberFromLive of lib/roster.ts for an existing member:
conditional display-name refresh, lastSeen stamp, the lastCallsign rule
(never store an ATIS callsign: on an ATIS sighting look up the last
non-ATIS callsign and keep the prior value when none is found) and the
conditional rating refresh for non-residents from a fetched profile
(fetchResult is the outcome of the external fetchMemberInfo call; it
touches rating fields and possibly the name, never lastCallsign). -/
def updateMemberFromLiveMember (active : List CachedSession)
    (history : List HistoricalSession) (dbConfigured dbOk : Bool)
    (dbCtrl : List DbControllerSession) (fetchResult : Option MemberInfo)
    (now : Nat) (m : MemberInfo) (cid : Nat) (name : String)
    (callsign : Option String) : MemberInfo :=
  let m1 :=
    if m.name == none || m.name == some "Not Tracked" || m.name == some "Unknown"
        || (m.name.getD "").data.all isJsSpace then
      if name != "" && name != toString cid
          && !positionPattern.contains (upperData name) then
        { m with name := some name }
      else m
    else m
  let m2 := { m1 with lastSeen := some now }
  let m3 :=
    match callsign with
    | some cs =>
        if cs != "" && !atisSuffix cs then
          { m2 with lastCallsign := some cs }
        else if cs != "" && atisSuffix cs then
          match findLastNonAtisCallsign active history dbConfigured dbOk dbCtrl cid with
          | some r => { m2 with lastCallsign := some r }
          | none => m2
        else m2
    | none => m2
  let isResident := m3.subdivision == "PAK"
  if !isResident && (m3.ratingName == "Unknown" || m3.rating == 0) then
    match fetchResult with
    | some info =>
        { m3 with rating := info.rating, ratingName := info.ratingName,
                  pilotRating := info.pilotRating,
                  pilotRatingName := info.pilotRatingName,
                  subdivision := info.subdivision, division := info.division,
                  region := info.region,
                  name := if info.name != none && info.name != some ""
                             && info.name != some "Not Tracked" then info.name
                          else m3.name }
    | none => m3
  else m3

/-- updateMemberFromLive over the roster map: a member not in the roster is
left untouched; an existing member is updated in place. -/
def updateMemberFromLive (roster : List (Nat × MemberInfo))
    (active : List CachedSession) (history : List HistoricalSession)
    (dbConfigured dbOk : Bool) (dbCtrl : List DbControllerSession)
    (fetchResult : Option MemberInfo) (now : Nat) (cid : Nat)
    (name : String) (callsign : Option String) : List (Nat × MemberInfo) :=
  match roster.find? (fun kv => kv.1 == cid) with
  | some _ =>
      roster.map (fun kv =>
        if kv.1 == cid then
          (kv.1, updateMemberFromLiveMember active history dbConfigured dbOk
            dbCtrl fetchResult now kv.2 cid name callsign)
        else kv)
  | none => roster

/-!  Lemmas about the association-list primitives. -/

theorem alLookup_eq_none {l : SessionList} {k : String} :
    alLookup l k = none ↔ ∀ kv ∈ l, kv.1 ≠ k := by
  simp [alLookup, List.find?_eq_none]

theorem alLookup_mem {l : SessionList} {k : String} {v : CachedSession}
    (h : alLookup l k = some v) : (k, v) ∈ l := by
  simp only [alLookup, Option.map_eq_some'] at h
  obtain ⟨kv, hfind, hv⟩ := h
  have hmem := List.mem_of_find?_eq_some hfind
  have hkey := List.find?_some hfind
  simp only [beq_iff_eq] at hkey
  cases kv
  simp_all

theorem alLookup_append_left {l₁ l₂ : SessionList} {k : String} {v : CachedSession}
    (h : alLookup l₁ k = some v) : alLookup (l₁ ++ l₂) k = some v := by
  induction l₁ with
  | nil => simp [alLookup] at h
  | cons kv rest ih =>
      simp only [alLookup, List.find?] at h ⊢
      cases hkv : (kv.1 == k) with
      | true => simpa [hkv] using h
      | false =>
          simp only [hkv] at h ⊢
          exact ih h

theorem alLookup_append_none {l₁ l₂ : SessionList} {k : String}
    (h : alLookup l₁ k = none) : alLookup (l₁ ++ l₂) k = alLookup l₂ k := by
  induction l₁ with
  | nil => simp
  | cons kv rest ih =>
      simp only [alLookup, List.find?] at h ⊢
      cases hkv : (kv.1 == k) with
      | true => simp [hkv] at h
      | false =>
          simp only [hkv] at h ⊢
          exact ih h

theorem find?_map_keyfix {f : String × CachedSession → String × CachedSession}
    (hf : ∀ kv, (f kv).1 = kv.1) (l : SessionList) (k : String) :
    (l.map f).find? (fun kv => kv.1 == k) =
      (l.find? (fun kv => kv.1 == k)).map f := by
  induction l with
  | nil => rfl
  | cons kv rest ih =>
      simp only [List.map_cons, List.find?, hf kv]
      cases hkv : (kv.1 == k) with
      | true => simp [hkv]
      | false => simpa [hkv] using ih

theorem alSetLastSeen_keyfix {k : String} {now : Nat}
    (kv : String × CachedSession) :
    ((if kv.1 == k then (kv.1, { kv.2 with lastSeen := now }) else kv) : String × CachedSession).1 = kv.1 := by
  by_cases h : kv.1 = k <;> simp [h]

theorem alLookup_alSetLastSeen_self {l : SessionList} {k : String} {now : Nat} :
    alLookup (alSetLastSeen l k now) k =
      (alLookup l k).map (fun s => { s with lastSeen := now }) := by
  unfold alLookup alSetLastSeen
  rw [find?_map_keyfix alSetLastSeen_keyfix]
  cases hfind : l.find? (fun kv => kv.1 == k) with
  | none => rfl
  | some kv =>
      have hkey := List.find?_some hfind
      simp only [beq_iff_eq] at hkey
      simp [hkey]

theorem alLookup_alSetLastSeen_other {l : SessionList} {k k' : String} {now : Nat}
    (h : k' ≠ k) :
    alLookup (alSetLastSeen l k now) k' = alLookup l k' := by
  unfold alLookup alSetLastSeen
  rw [find?_map_keyfix alSetLastSeen_keyfix]
  cases hfind : l.find? (fun kv => kv.1 == k') with
  | none => rfl
  | some kv =>
      have hkey := List.find?_some hfind
      simp only [beq_iff_eq] at hkey
      simp [hkey, h]

theorem alSetLastSeen_keys {l : SessionList} {k : String} {now : Nat} :
    (alSetLastSeen l k now).map Prod.fst = l.map Prod.fst := by
  induction l with
  | nil => rfl
  | cons kv rest ih =>
      simp only [alSetLastSeen, List.map_cons] at ih ⊢
      rw [alSetLastSeen_keyfix kv, ih]

/-- Members of an updated store: entries with the touched key got their
lastSeen set, the others are untouched. -/
theorem mem_alSetLastSeen {l : SessionList} {k : String} {now : Nat} {kv : String × CachedSession}
    (h : kv ∈ alSetLastSeen l k now) :
    (kv.1 = k ∧ ∃ v₀, (k, v₀) ∈ l ∧ kv.2 = { v₀ with lastSeen := now }) ∨
      (kv.1 ≠ k ∧ kv ∈ l) := by
  simp only [alSetLastSeen, List.mem_map] at h
  obtain ⟨kv₀, hmem, heq⟩ := h
  by_cases hk : kv₀.1 = k
  · left
    simp only [show (kv₀.1 == k) = true by simp [hk], if_true] at heq
    subst heq
    exact ⟨hk, kv₀.2, by simpa [← hk], rfl⟩
  · right
    simp only [show (kv₀.1 == k) = false by simp [hk], Bool.false_eq_true, if_false] at heq
    subst heq
    exact ⟨hk, hmem⟩

theorem mem_alSetLastSeen_of_mem_ne {l : SessionList} {k : String} {now : Nat}
    {kv : String × CachedSession} (h : kv ∈ l) (hne : kv.1 ≠ k) :
    kv ∈ alSetLastSeen l k now := by
  simp only [alSetLastSeen, List.mem_map]
  exact ⟨kv, h, by simp [show (kv.1 == k) = false by simp [hne]]⟩

/-!  Characterization of the staleness sweep as filters over the entry
list: the kept store is the entries failing the closure test in order, the
history gains the closures (newest first), the stats are bumped once per
closure and the removed list carries the stamped copies in sweep order. -/

theorem closePass_go (now : Nat) (seen : List String) :
    ∀ (entries : SessionList) (kept : SessionList) (hc : HistoryCache)
      (rem : List HistoricalSession),
      entries.foldl (closeStep now seen) (kept, hc, rem) =
        (kept ++ entries.filter (fun kv => !closeTest now seen kv),
         { sessions :=
             ((entries.filter (closeTest now seen)).map
               (fun kv => closeSession kv.2)).reverse ++ hc.sessions,
           stats :=
             (entries.filter (closeTest now seen)).foldl
               (fun st kv => bumpStats st kv.2) hc.stats },
         rem ++ (entries.filter (closeTest now seen)).map
           (fun kv => closeRemoved now kv.2)) := by
  intro entries
  induction entries with
  | nil => intro kept hc rem; simp
  | cons kv rest ih =>
      intro kept hc rem
      cases hct : closeTest now seen kv with
      | true =>
          simp only [List.foldl_cons, closeStep, hct, if_true, List.filter_cons,
            Bool.not_true, List.map_cons, List.reverse_cons]
          rw [ih]
          simp [List.append_assoc]
      | false =>
          simp only [List.foldl_cons, closeStep, hct, Bool.false_eq_true, if_false,
            List.filter_cons, Bool.not_false, List.map_cons]
          rw [ih]
          simp [List.append_assoc]

theorem closePass_eq (now : Nat) (seen : List String) (entries : SessionList)
    (hc : HistoryCache) :
    closePass now seen entries hc =
      (entries.filter (fun kv => !closeTest now seen kv),
       { sessions :=
           ((entries.filter (closeTest now seen)).map
             (fun kv => closeSession kv.2)).reverse ++ hc.sessions,
         stats :=
           (entries.filter (closeTest now seen)).foldl
             (fun st kv => bumpStats st kv.2) hc.stats },
       (entries.filter (closeTest now seen)).map
         (fun kv => closeRemoved now kv.2)) := by
  simpa using closePass_go now seen entries [] hc []

/-!  Generic fold helpers for invariants of the snapshot passes. -/

theorem foldl_preserve {α β : Type} (P : β → Prop) (f : β → α → β)
    (hf : ∀ st x, P st → P (f st x)) :
    ∀ (l : List α) (st : β), P st → P (l.foldl f st) := by
  intro l
  induction l with
  | nil => intro st h; exact h
  | cons x rest ih => intro st h; exact ih (f st x) (hf st x h)

/-!  Step-level invariants of the snapshot passes. -/

theorem stepController_eq_insert {now : Nat} {st : SessionList × List AddedEvent}
    {c : ControllerEntry} (hlook : alLookup st.1 (atcKey c.callsign) = none) :
    stepController now st c =
      (st.1 ++ [(atcKey c.callsign, newControllerSession now c)],
       st.2 ++ [.controllerMsg ("🎧 " ++ c.callsign ++ " (" ++ c.name ++ ")")]) := by
  simp [stepController, hlook]

theorem stepController_eq_update {now : Nat} {st : SessionList × List AddedEvent}
    {c : ControllerEntry} {v : CachedSession}
    (hlook : alLookup st.1 (atcKey c.callsign) = some v) :
    stepController now st c = (alSetLastSeen st.1 (atcKey c.callsign) now, st.2) := by
  simp [stepController, hlook]

theorem stepPilot_eq_insert {now : Nat} {st : SessionList × List AddedEvent}
    {p : PilotEntry} (hlook : alLookup st.1 (pilotKey p.callsign) = none) :
    stepPilot now st p =
      (st.1 ++ [(pilotKey p.callsign, newPilotSession now p)],
       st.2 ++ [.pilotMsg ("✈️ " ++ p.callsign ++ " (" ++ p.departure ++ "→" ++ p.arrival ++ ")") now]) := by
  simp [stepPilot, hlook]

theorem stepPilot_eq_update {now : Nat} {st : SessionList × List AddedEvent}
    {p : PilotEntry} {v : CachedSession}
    (hlook : alLookup st.1 (pilotKey p.callsign) = some v) :
    stepPilot now st p = (alSetLastSeen st.1 (pilotKey p.callsign) now, st.2) := by
  simp [stepPilot, hlook]

theorem stepController_mem_of_ne {now : Nat} {st : SessionList × List AddedEvent}
    {c : ControllerEntry} {kv : String × CachedSession}
    (h : kv ∈ st.1) (hne : kv.1 ≠ atcKey c.callsign) :
    kv ∈ (stepController now st c).1 := by
  cases hlook : alLookup st.1 (atcKey c.callsign) with
  | none => rw [stepController_eq_insert hlook]; exact List.mem_append_left _ h
  | some v => rw [stepController_eq_update hlook]; exact mem_alSetLastSeen_of_mem_ne h hne

theorem stepPilot_mem_of_ne {now : Nat} {st : SessionList × List AddedEvent}
    {p : PilotEntry} {kv : String × CachedSession}
    (h : kv ∈ st.1) (hne : kv.1 ≠ pilotKey p.callsign) :
    kv ∈ (stepPilot now st p).1 := by
  cases hlook : alLookup st.1 (pilotKey p.callsign) with
  | none => rw [stepPilot_eq_insert hlook]; exact List.mem_append_left _ h
  | some v => rw [stepPilot_eq_update hlook]; exact mem_alSetLastSeen_of_mem_ne h hne

theorem stepController_mem_inv {now : Nat} {st : SessionList × List AddedEvent}
    {c : ControllerEntry} {kv : String × CachedSession}
    (h : kv ∈ (stepController now st c).1) :
    kv.1 = atcKey c.callsign ∨ kv ∈ st.1 := by
  cases hlook : alLookup st.1 (atcKey c.callsign) with
  | none =>
      rw [stepController_eq_insert hlook] at h
      rcases List.mem_append.mp h with hmem | hmem
      · exact Or.inr hmem
      · simp only [List.mem_singleton] at hmem
        subst hmem
        exact Or.inl rfl
  | some v =>
      rw [stepController_eq_update hlook] at h
      rcases mem_alSetLastSeen h with ⟨hk, _⟩ | ⟨_, hmem⟩
      · exact Or.inl hk
      · exact Or.inr hmem

theorem stepPilot_mem_inv {now : Nat} {st : SessionList × List AddedEvent}
    {p : PilotEntry} {kv : String × CachedSession}
    (h : kv ∈ (stepPilot now st p).1) :
    kv.1 = pilotKey p.callsign ∨ kv ∈ st.1 := by
  cases hlook : alLookup st.1 (pilotKey p.callsign) with
  | none =>
      rw [stepPilot_eq_insert hlook] at h
      rcases List.mem_append.mp h with hmem | hmem
      · exact Or.inr hmem
      · simp only [List.mem_singleton] at hmem
        subst hmem
        exact Or.inl rfl
  | some v =>
      rw [stepPilot_eq_update hlook] at h
      rcases mem_alSetLastSeen h with ⟨hk, _⟩ | ⟨_, hmem⟩
      · exact Or.inl hk
      · exact Or.inr hmem

/-- Entries filed under key k all carry lastSeen = now. -/
def keyNow (now : Nat) (k : String) (l : SessionList) : Prop :=
  ∀ kv ∈ l, kv.1 = k → kv.2.lastSeen = now

theorem stepController_keyNow {now : Nat} {st : SessionList × List AddedEvent}
    {c : ControllerEntry} {k : String} (h : keyNow now k st.1) :
    keyNow now k (stepController now st c).1 := by
  intro kv hmem hk
  cases hlook : alLookup st.1 (atcKey c.callsign) with
  | none =>
      rw [stepController_eq_insert hlook] at hmem
      rcases List.mem_append.mp hmem with hmem' | hmem'
      · exact h kv hmem' hk
      · simp only [List.mem_singleton] at hmem'
        subst hmem'
        rfl
  | some v =>
      rw [stepController_eq_update hlook] at hmem
      rcases mem_alSetLastSeen hmem with ⟨_, v₀, _, hv⟩ | ⟨_, hmem'⟩
      · rw [hv]
      · exact h kv hmem' hk

theorem stepPilot_keyNow {now : Nat} {st : SessionList × List AddedEvent}
    {p : PilotEntry} {k : String} (h : keyNow now k st.1) :
    keyNow now k (stepPilot now st p).1 := by
  intro kv hmem hk
  cases hlook : alLookup st.1 (pilotKey p.callsign) with
  | none =>
      rw [stepPilot_eq_insert hlook] at hmem
      rcases List.mem_append.mp hmem with hmem' | hmem'
      · exact h kv hmem' hk
      · simp only [List.mem_singleton] at hmem'
        subst hmem'
        rfl
  | some v =>
      rw [stepPilot_eq_update hlook] at hmem
      rcases mem_alSetLastSeen hmem with ⟨_, v₀, _, hv⟩ | ⟨_, hmem'⟩
      · rw [hv]
      · exact h kv hmem' hk

theorem stepController_self_keyNow {now : Nat} {st : SessionList × List AddedEvent}
    {c : ControllerEntry} :
    keyNow now (atcKey c.callsign) (stepController now st c).1 := by
  intro kv hmem hk
  cases hlook : alLookup st.1 (atcKey c.callsign) with
  | none =>
      rw [stepController_eq_insert hlook] at hmem
      rcases List.mem_append.mp hmem with hmem' | hmem'
      · exact absurd hk (alLookup_eq_none.mp hlook kv hmem')
      · simp only [List.mem_singleton] at hmem'
        subst hmem'
        rfl
  | some v =>
      rw [stepController_eq_update hlook] at hmem
      rcases mem_alSetLastSeen hmem with ⟨_, v₀, _, hv⟩ | ⟨hne, _⟩
      · rw [hv]
      · exact absurd hk hne

theorem stepPilot_self_keyNow {now : Nat} {st : SessionList × List AddedEvent}
    {p : PilotEntry} :
    keyNow now (pilotKey p.callsign) (stepPilot now st p).1 := by
  intro kv hmem hk
  cases hlook : alLookup st.1 (pilotKey p.callsign) with
  | none =>
      rw [stepPilot_eq_insert hlook] at hmem
      rcases List.mem_append.mp hmem with hmem' | hmem'
      · exact absurd hk (alLookup_eq_none.mp hlook kv hmem')
      · simp only [List.mem_singleton] at hmem'
        subst hmem'
        rfl
  | some v =>
      rw [stepPilot_eq_update hlook] at hmem
      rcases mem_alSetLastSeen hmem with ⟨_, v₀, _, hv⟩ | ⟨hne, _⟩
      · rw [hv]
      · exact absurd hk hne

theorem foldl_preserve_mem {α β : Type} (P : β → Prop) (f : β → α → β) :
    ∀ (l : List α), (∀ st, ∀ x ∈ l, P st → P (f st x)) →
      ∀ st, P st → P (l.foldl f st) := by
  intro l
  induction l with
  | nil => intro _ st h; exact h
  | cons x rest ih =>
      intro hf st h
      exact ih (fun st' x' hx' h' => hf st' x' (List.mem_cons_of_mem _ hx') h')
        (f st x) (hf st x (List.mem_cons_self _ _) h)

theorem foldl_establish_mem {α β : Type} (P : α → β → Prop) (f : β → α → β) :
    ∀ (l : List α), (∀ st, ∀ x ∈ l, P x (f st x)) →
      (∀ st, ∀ x ∈ l, ∀ y, P y st → P y (f st x)) →
      ∀ st, ∀ y ∈ l, P y (l.foldl f st) := by
  intro l
  induction l with
  | nil => intro _ _ st y h; cases h
  | cons x rest ih =>
      intro hstep hpres st y h
      rcases List.mem_cons.mp h with heq | hmem
      · subst heq
        exact foldl_preserve_mem (fun st' => P y st') f rest
          (fun st' x' hx' h' => hpres st' x' (List.mem_cons_of_mem _ hx') y h')
          (f st y) (hstep st y (List.mem_cons_self _ _))
      · exact ih (fun st' x' hx' => hstep st' x' (List.mem_cons_of_mem _ hx'))
          (fun st' x' hx' => hpres st' x' (List.mem_cons_of_mem _ hx'))
          (f st x) y hmem

/-!  Snapshot-pass level invariants. -/

/-- Entries whose key is not an observed id pass through both snapshot
passes untouched. -/
theorem snapshotPass_mem_of_not_seen {cs : List ControllerEntry}
    {ps : List PilotEntry} {now : Nat} {sc : SessionList}
    {kv : String × CachedSession} (hmem : kv ∈ sc)
    (hns : ¬ kv.1 ∈ seenIds cs ps) :
    kv ∈ (snapshotPass cs ps now sc).1 := by
  have hnc : ∀ c ∈ cs, kv.1 ≠ atcKey c.callsign := by
    intro c hc heq
    exact hns (List.mem_append_left _ (List.mem_map.mpr ⟨c, hc, heq.symm⟩))
  have hnp : ∀ p ∈ ps, kv.1 ≠ pilotKey p.callsign := by
    intro p hp heq
    exact hns (List.mem_append_right _ (List.mem_map.mpr ⟨p, hp, heq.symm⟩))
  unfold snapshotPass
  refine foldl_preserve_mem (fun st => kv ∈ st.1) (stepPilot now) ps
    (fun st p hp h => stepPilot_mem_of_ne h (hnp p hp)) _ ?_
  exact foldl_preserve_mem (fun st => kv ∈ st.1) (stepController now) cs
    (fun st c hc h => stepController_mem_of_ne h (hnc c hc)) (sc, []) hmem

/-- Entries of the snapshot-pass output are either filed under an observed
id or came through from the input store. -/
theorem snapshotPass_mem_inv {cs : List ControllerEntry} {ps : List PilotEntry}
    {now : Nat} {sc : SessionList} {kv : String × CachedSession}
    (h : kv ∈ (snapshotPass cs ps now sc).1) :
    kv.1 ∈ seenIds cs ps ∨ kv ∈ sc := by
  unfold snapshotPass at h
  have hmid :
      ∀ kv' ∈ (cs.foldl (stepController now) (sc, [])).1,
        kv'.1 ∈ seenIds cs ps ∨ kv' ∈ sc := by
    have := foldl_preserve_mem
      (fun st : SessionList × List AddedEvent =>
        ∀ kv' ∈ st.1, kv'.1 ∈ seenIds cs ps ∨ kv' ∈ sc)
      (stepController now) cs
      (fun st c hc hP kv' hkv' => by
        rcases stepController_mem_inv hkv' with hk | hmem
        · exact Or.inl (hk ▸ List.mem_append_left _ (List.mem_map.mpr ⟨c, hc, rfl⟩))
        · exact hP kv' hmem)
      (sc, []) (fun kv' hkv' => Or.inr hkv')
    exact this
  have := foldl_preserve_mem
    (fun st : SessionList × List AddedEvent =>
      ∀ kv' ∈ st.1, kv'.1 ∈ seenIds cs ps ∨ kv' ∈ sc)
    (stepPilot now) ps
    (fun st p hp hP kv' hkv' => by
      rcases stepPilot_mem_inv hkv' with hk | hmem
      · exact Or.inl (hk ▸ List.mem_append_right _ (List.mem_map.mpr ⟨p, hp, rfl⟩))
      · exact hP kv' hmem)
    (cs.foldl (stepController now) (sc, [])) hmid
  exact this kv h

/-- Every entry filed under an observed id carries lastSeen = now after the
snapshot passes. -/
theorem snapshotPass_keyNow {cs : List ControllerEntry} {ps : List PilotEntry}
    {now : Nat} {sc : SessionList} {kv : String × CachedSession}
    (hmem : kv ∈ (snapshotPass cs ps now sc).1) (hseen : kv.1 ∈ seenIds cs ps) :
    kv.2.lastSeen = now := by
  unfold snapshotPass at hmem
  rcases List.mem_append.mp hseen with hc | hp
  · obtain ⟨c, hcs, hk⟩ := List.mem_map.mp hc
    have hkn : keyNow now (atcKey c.callsign) (snapshotPass cs ps now sc).1 := by
      unfold snapshotPass
      refine foldl_preserve
        (fun st : SessionList × List AddedEvent => keyNow now (atcKey c.callsign) st.1)
        (stepPilot now) (fun st p h => stepPilot_keyNow h) ps _ ?_
      exact foldl_establish_mem
        (fun c' (st : SessionList × List AddedEvent) => keyNow now (atcKey c'.callsign) st.1)
        (stepController now) cs (fun st c' _ => by exact stepController_self_keyNow)
        (fun st c' _ y h => by exact stepController_keyNow h) (sc, []) c hcs
    exact hkn kv (by unfold snapshotPass; exact hmem) hk.symm
  · obtain ⟨p, hps, hk⟩ := List.mem_map.mp hp
    have hkn : keyNow now (pilotKey p.callsign) (snapshotPass cs ps now sc).1 := by
      unfold snapshotPass
      exact foldl_establish_mem
        (fun p' (st : SessionList × List AddedEvent) => keyNow now (pilotKey p'.callsign) st.1)
        (stepPilot now) ps (fun st p' _ => by exact stepPilot_self_keyNow)
        (fun st p' _ y h => by exact stepPilot_keyNow h)
        (cs.foldl (stepController now) (sc, [])) p hps
    exact hkn kv (by unfold snapshotPass; exact hmem) hk.symm

/-!  Key presence, key uniqueness and the key-shape invariant. -/

theorem alLookup_isSome_append {l l₂ : SessionList} {k : String}
    (h : (alLookup l k).isSome) : (alLookup (l ++ l₂) k).isSome := by
  cases hl : alLookup l k with
  | none => rw [hl] at h; cases h
  | some v => rw [alLookup_append_left hl]; rfl

theorem alLookup_isSome_alSetLastSeen {l : SessionList} {k k' : String} {now : Nat}
    (h : (alLookup l k').isSome) :
    (alLookup (alSetLastSeen l k now) k').isSome := by
  by_cases hk : k' = k
  · subst hk
    rw [alLookup_alSetLastSeen_self]
    cases hl : alLookup l k' with
    | none => rw [hl] at h; cases h
    | some v => simp
  · rw [alLookup_alSetLastSeen_other hk]
    exact h

theorem stepController_isSome {now : Nat} {st : SessionList × List AddedEvent}
    {c : ControllerEntry} {k : String} (h : (alLookup st.1 k).isSome) :
    (alLookup (stepController now st c).1 k).isSome := by
  cases hlook : alLookup st.1 (atcKey c.callsign) with
  | none => rw [stepController_eq_insert hlook]; exact alLookup_isSome_append h
  | some v => rw [stepController_eq_update hlook]; exact alLookup_isSome_alSetLastSeen h

theorem stepPilot_isSome {now : Nat} {st : SessionList × List AddedEvent}
    {p : PilotEntry} {k : String} (h : (alLookup st.1 k).isSome) :
    (alLookup (stepPilot now st p).1 k).isSome := by
  cases hlook : alLookup st.1 (pilotKey p.callsign) with
  | none => rw [stepPilot_eq_insert hlook]; exact alLookup_isSome_append h
  | some v => rw [stepPilot_eq_update hlook]; exact alLookup_isSome_alSetLastSeen h

theorem stepController_self_isSome {now : Nat} {st : SessionList × List AddedEvent}
    {c : ControllerEntry} :
    (alLookup (stepController now st c).1 (atcKey c.callsign)).isSome := by
  cases hlook : alLookup st.1 (atcKey c.callsign) with
  | none =>
      rw [stepController_eq_insert hlook]
      simp only [alLookup, List.find?_append]
      unfold alLookup at hlook
      rcases Option.map_eq_none'.mp hlook with hfind
      simp [hfind, List.find?]
  | some v =>
      rw [stepController_eq_update hlook]
      exact alLookup_isSome_alSetLastSeen (by rw [hlook]; rfl)

theorem stepPilot_self_isSome {now : Nat} {st : SessionList × List AddedEvent}
    {p : PilotEntry} :
    (alLookup (stepPilot now st p).1 (pilotKey p.callsign)).isSome := by
  cases hlook : alLookup st.1 (pilotKey p.callsign) with
  | none =>
      rw [stepPilot_eq_insert hlook]
      simp only [alLookup, List.find?_append]
      unfold alLookup at hlook
      rcases Option.map_eq_none'.mp hlook with hfind
      simp [hfind, List.find?]
  | some v =>
      rw [stepPilot_eq_update hlook]
      exact alLookup_isSome_alSetLastSeen (by rw [hlook]; rfl)

/-- Every observed id is present in the store after the snapshot passes. -/
theorem snapshotPass_seen_isSome {cs : List ControllerEntry}
    {ps : List PilotEntry} {now : Nat} {sc : SessionList} {k : String}
    (hk : k ∈ seenIds cs ps) :
    (alLookup (snapshotPass cs ps now sc).1 k).isSome := by
  unfold snapshotPass
  rcases List.mem_append.mp hk with hc | hp
  · obtain ⟨c, hcs, hkey⟩ := List.mem_map.mp hc
    subst hkey
    refine foldl_preserve
      (fun st : SessionList × List AddedEvent =>
        (alLookup st.1 (atcKey c.callsign)).isSome)
      (stepPilot now) (fun st p h => stepPilot_isSome h) ps _ ?_
    exact foldl_establish_mem
      (fun c' (st : SessionList × List AddedEvent) =>
        (alLookup st.1 (atcKey c'.callsign)).isSome)
      (stepController now) cs (fun st c' _ => by exact stepController_self_isSome)
      (fun st c' _ y h => by exact stepController_isSome h) (sc, []) c hcs
  · obtain ⟨p, hps, hkey⟩ := List.mem_map.mp hp
    subst hkey
    exact foldl_establish_mem
      (fun p' (st : SessionList × List AddedEvent) =>
        (alLookup st.1 (pilotKey p'.callsign)).isSome)
      (stepPilot now) ps (fun st p' _ => by exact stepPilot_self_isSome)
      (fun st p' _ y h => by exact stepPilot_isSome h)
      (cs.foldl (stepController now) (sc, [])) p hps

/-- A store whose keys all sit in the observed set produces no added events
and is only refreshed: the added list of the fold stays as it was. -/
theorem controllerFold_added (now : Nat) :
    ∀ (cs : List ControllerEntry) (st : SessionList × List AddedEvent),
      (∀ c ∈ cs, (alLookup st.1 (atcKey c.callsign)).isSome) →
      (cs.foldl (stepController now) st).2 = st.2 := by
  intro cs
  induction cs with
  | nil => intro st h; rfl
  | cons c rest ih =>
      intro st h
      rw [List.foldl_cons]
      cases hlook : alLookup st.1 (atcKey c.callsign) with
      | none =>
          have := h c (List.mem_cons_self _ _)
          rw [hlook] at this
          cases this
      | some v =>
          rw [stepController_eq_update hlook]
          exact ih _ (fun c' hc' => alLookup_isSome_alSetLastSeen
            (h c' (List.mem_cons_of_mem _ hc')))

theorem pilotFold_added (now : Nat) :
    ∀ (ps : List PilotEntry) (st : SessionList × List AddedEvent),
      (∀ p ∈ ps, (alLookup st.1 (pilotKey p.callsign)).isSome) →
      (ps.foldl (stepPilot now) st).2 = st.2 := by
  intro ps
  induction ps with
  | nil => intro st h; rfl
  | cons p rest ih =>
      intro st h
      rw [List.foldl_cons]
      cases hlook : alLookup st.1 (pilotKey p.callsign) with
      | none =>
          have := h p (List.mem_cons_self _ _)
          rw [hlook] at this
          cases this
      | some v =>
          rw [stepPilot_eq_update hlook]
          exact ih _ (fun p' hp' => alLookup_isSome_alSetLastSeen
            (h p' (List.mem_cons_of_mem _ hp')))

theorem controllerFold_isSome (now : Nat) {k : String} :
    ∀ (cs : List ControllerEntry) (st : SessionList × List AddedEvent),
      (alLookup st.1 k).isSome →
      (alLookup (cs.foldl (stepController now) st).1 k).isSome :=
  fun cs st h =>
    foldl_preserve
      (fun st' : SessionList × List AddedEvent => (alLookup st'.1 k).isSome)
      (stepController now) (fun st' c h' => stepController_isSome h') cs st h

/-- Added events of the snapshot passes on a store already containing every
observed id: none. -/
theorem snapshotPass_added_nil {cs : List ControllerEntry} {ps : List PilotEntry}
    {now : Nat} {sc : SessionList}
    (hc : ∀ c ∈ cs, (alLookup sc (atcKey c.callsign)).isSome)
    (hp : ∀ p ∈ ps, (alLookup sc (pilotKey p.callsign)).isSome) :
    (snapshotPass cs ps now sc).2 = [] := by
  unfold snapshotPass
  have hmid := controllerFold_added now cs (sc, []) hc
  rw [pilotFold_added now ps _
    (fun p hp' => controllerFold_isSome now cs (sc, []) (hp p hp')), hmid]

/-- Unique binding under a key in a store with no duplicate keys. -/
theorem nodup_key_unique :
    ∀ {l : SessionList}, (l.map Prod.fst).Nodup →
      ∀ {k : String} {v : CachedSession}, (k, v) ∈ l →
        ∀ {kv : String × CachedSession}, kv ∈ l → kv.1 = k → kv = (k, v) := by
  intro l
  induction l with
  | nil => intro _ _ _ hmem; cases hmem
  | cons x rest ih =>
      intro hnd k v hmem kv hkv hk
      simp only [List.map_cons, List.nodup_cons] at hnd
      rcases List.mem_cons.mp hmem with heq | hmem'
      · rcases List.mem_cons.mp hkv with heq' | hkv'
        · rw [heq', ← heq]
        · exfalso
          apply hnd.1
          rw [← heq]
          exact List.mem_map.mpr ⟨kv, hkv', hk⟩
      · rcases List.mem_cons.mp hkv with heq' | hkv'
        · exfalso
          apply hnd.1
          rw [← heq', hk]
          exact List.mem_map.mpr ⟨(k, v), hmem', rfl⟩
        · exact ih hnd.2 hmem' hkv' hk

theorem alLookup_of_mem_nodup :
    ∀ {l : SessionList}, (l.map Prod.fst).Nodup →
      ∀ {k : String} {v : CachedSession}, (k, v) ∈ l → alLookup l k = some v := by
  intro l
  induction l with
  | nil => intro _ _ _ hmem; cases hmem
  | cons x rest ih =>
      intro hnd k v hmem
      simp only [List.map_cons, List.nodup_cons] at hnd
      rcases List.mem_cons.mp hmem with heq | hmem'
      · rw [← heq]
        simp [alLookup, List.find?]
      · have hxk : (x.1 == k) = false := by
          refine beq_eq_false_iff_ne.mpr fun heq => ?_
          exact hnd.1 (heq ▸ List.mem_map.mpr ⟨(k, v), hmem', rfl⟩)
        have ih' := ih hnd.2 hmem'
        simp only [alLookup, List.find?, hxk] at ih' ⊢
        exact ih'

theorem alLookup_cons_of_pos {kv : String × CachedSession} {l : SessionList}
    {k : String} (h : (kv.1 == k) = true) : alLookup (kv :: l) k = some kv.2 := by
  simp [alLookup, List.find?, h]

theorem alLookup_cons_of_neg {kv : String × CachedSession} {l : SessionList}
    {k : String} (h : (kv.1 == k) = false) : alLookup (kv :: l) k = alLookup l k := by
  simp [alLookup, List.find?, h]

theorem alLookup_filter_of_all :
    ∀ {l : SessionList} {p : String × CachedSession → Bool} {k : String},
      (∀ kv ∈ l, kv.1 = k → p kv = true) →
      alLookup (l.filter p) k = alLookup l k := by
  intro l
  induction l with
  | nil => intro p k _; rfl
  | cons x rest ih =>
      intro p k hall
      have ih' := ih (fun kv h hk => hall kv (List.mem_cons_of_mem _ h) hk)
      cases hx : (x.1 == k) with
      | true =>
          have hpx : p x = true := hall x (List.mem_cons_self _ _) (by simpa using hx)
          rw [List.filter_cons_of_pos hpx, alLookup_cons_of_pos hx,
            alLookup_cons_of_pos hx]
      | false =>
          by_cases hpx : p x = true
          · rw [List.filter_cons_of_pos hpx, alLookup_cons_of_neg hx,
              alLookup_cons_of_neg hx]
            exact ih'
          · rw [List.filter_cons_of_neg hpx, ih']
            exact (alLookup_cons_of_neg hx).symm

theorem alLookup_filter_none {l : SessionList} {p : String × CachedSession → Bool}
    {k : String} (hall : ∀ kv ∈ l, kv.1 = k → p kv = false) :
    alLookup (l.filter p) k = none := by
  rw [alLookup_eq_none]
  intro kv hkv hk
  have hmem := List.mem_of_mem_filter hkv
  have hp := List.of_mem_filter hkv
  rw [hall kv hmem hk] at hp
  cases hp

/-- Singleton filter in a store with unique keys: a predicate satisfied by
one entry and forcing its key selects exactly that entry. -/
theorem filter_eq_singleton_of_nodup {q : String × CachedSession → Bool} :
    ∀ {l : SessionList}, (l.map Prod.fst).Nodup →
      ∀ {k : String} {v : CachedSession}, (k, v) ∈ l → q (k, v) = true →
        (∀ kv ∈ l, q kv = true → kv.1 = k) → l.filter q = [(k, v)] := by
  intro l
  induction l with
  | nil => intro _ _ _ hmem; cases hmem
  | cons x rest ih =>
      intro hnd k v hmem hq hkey
      simp only [List.map_cons, List.nodup_cons] at hnd
      rcases List.mem_cons.mp hmem with heq | hmem'
      · rw [← heq] at hnd ⊢
        simp only [List.filter_cons, hq, if_true]
        have hnil : rest.filter q = [] := by
          rw [List.filter_eq_nil]
          intro kv hkv hqkv
          have hkk := hkey kv (List.mem_cons_of_mem _ hkv) hqkv
          exact hnd.1 (hkk ▸ List.mem_map.mpr ⟨kv, hkv, rfl⟩)
        rw [hnil]
      · have hxq : q x = false := by
          cases hcases : q x with
          | false => rfl
          | true =>
              exfalso
              have hxk := hkey x (List.mem_cons_self _ _) hcases
              exact hnd.1 (hxk ▸ List.mem_map.mpr ⟨(k, v), hmem', rfl⟩)
        simp only [List.filter_cons, hxq, Bool.false_eq_true, if_false]
        exact ih hnd.2 hmem' hq
          (fun kv h hk => hkey kv (List.mem_cons_of_mem _ h) hk)

/-- Stores with unique keys keep them through the snapshot passes. -/
theorem stepController_nodupKeys {now : Nat} {st : SessionList × List AddedEvent}
    {c : ControllerEntry} (h : (st.1.map Prod.fst).Nodup) :
    ((stepController now st c).1.map Prod.fst).Nodup := by
  cases hlook : alLookup st.1 (atcKey c.callsign) with
  | none =>
      rw [stepController_eq_insert hlook]
      simp only [List.map_append, List.map_cons, List.map_nil]
      rw [List.nodup_append]
      refine ⟨h, List.nodup_singleton _, ?_⟩
      intro a ha
      simp only [List.mem_singleton]
      intro heq
      subst heq
      obtain ⟨kv, hkv, hk⟩ := List.mem_map.mp ha
      exact absurd hk (alLookup_eq_none.mp hlook kv hkv)
  | some v =>
      rw [stepController_eq_update hlook]
      rw [alSetLastSeen_keys]
      exact h

theorem stepPilot_nodupKeys {now : Nat} {st : SessionList × List AddedEvent}
    {p : PilotEntry} (h : (st.1.map Prod.fst).Nodup) :
    ((stepPilot now st p).1.map Prod.fst).Nodup := by
  cases hlook : alLookup st.1 (pilotKey p.callsign) with
  | none =>
      rw [stepPilot_eq_insert hlook]
      simp only [List.map_append, List.map_cons, List.map_nil]
      rw [List.nodup_append]
      refine ⟨h, List.nodup_singleton _, ?_⟩
      intro a ha
      simp only [List.mem_singleton]
      intro heq
      subst heq
      obtain ⟨kv, hkv, hk⟩ := List.mem_map.mp ha
      exact absurd hk (alLookup_eq_none.mp hlook kv hkv)
  | some v =>
      rw [stepPilot_eq_update hlook]
      rw [alSetLastSeen_keys]
      exact h

theorem snapshotPass_nodupKeys {cs : List ControllerEntry} {ps : List PilotEntry}
    {now : Nat} {sc : SessionList} (h : (sc.map Prod.fst).Nodup) :
    (((snapshotPass cs ps now sc).1).map Prod.fst).Nodup := by
  unfold snapshotPass
  refine foldl_preserve
    (fun st : SessionList × List AddedEvent => (st.1.map Prod.fst).Nodup)
    (stepPilot now) (fun st p h' => stepPilot_nodupKeys h') ps _ ?_
  exact foldl_preserve
    (fun st : SessionList × List AddedEvent => (st.1.map Prod.fst).Nodup)
    (stepController now) (fun st c h' => stepController_nodupKeys h') cs (sc, []) h

/-- Entries are filed under sessionKey of their value, through the snapshot
passes. -/
theorem stepController_goodKeys {now : Nat} {st : SessionList × List AddedEvent}
    {c : ControllerEntry} (h : ∀ kv ∈ st.1, kv.1 = sessionKey kv.2) :
    ∀ kv ∈ (stepController now st c).1, kv.1 = sessionKey kv.2 := by
  intro kv hkv
  cases hlook : alLookup st.1 (atcKey c.callsign) with
  | none =>
      rw [stepController_eq_insert hlook] at hkv
      rcases List.mem_append.mp hkv with hmem | hmem
      · exact h kv hmem
      · simp only [List.mem_singleton] at hmem
        subst hmem
        rfl
  | some v =>
      rw [stepController_eq_update hlook] at hkv
      rcases mem_alSetLastSeen hkv with ⟨hk, v₀, hv₀, hv⟩ | ⟨_, hmem⟩
      · rw [hk, hv]
        exact h _ hv₀
      · exact h kv hmem

theorem stepPilot_goodKeys {now : Nat} {st : SessionList × List AddedEvent}
    {p : PilotEntry} (h : ∀ kv ∈ st.1, kv.1 = sessionKey kv.2) :
    ∀ kv ∈ (stepPilot now st p).1, kv.1 = sessionKey kv.2 := by
  intro kv hkv
  cases hlook : alLookup st.1 (pilotKey p.callsign) with
  | none =>
      rw [stepPilot_eq_insert hlook] at hkv
      rcases List.mem_append.mp hkv with hmem | hmem
      · exact h kv hmem
      · simp only [List.mem_singleton] at hmem
        subst hmem
        rfl
  | some v =>
      rw [stepPilot_eq_update hlook] at hkv
      rcases mem_alSetLastSeen hkv with ⟨hk, v₀, hv₀, hv⟩ | ⟨_, hmem⟩
      · rw [hk, hv]
        exact h _ hv₀
      · exact h kv hmem

theorem snapshotPass_goodKeys {cs : List ControllerEntry} {ps : List PilotEntry}
    {now : Nat} {sc : SessionList} (h : ∀ kv ∈ sc, kv.1 = sessionKey kv.2) :
    ∀ kv ∈ (snapshotPass cs ps now sc).1, kv.1 = sessionKey kv.2 := by
  unfold snapshotPass
  refine foldl_preserve
    (fun st : SessionList × List AddedEvent => ∀ kv ∈ st.1, kv.1 = sessionKey kv.2)
    (stepPilot now) (fun st p h' => stepPilot_goodKeys h') ps _ ?_
  exact foldl_preserve
    (fun st : SessionList × List AddedEvent => ∀ kv ∈ st.1, kv.1 = sessionKey kv.2)
    (stepController now) (fun st c h' => stepController_goodKeys h') cs (sc, []) h

/-!  Lookup of an unobserved key through the snapshot passes. -/

theorem stepController_lookup_other {now : Nat} {st : SessionList × List AddedEvent}
    {c : ControllerEntry} {k : String} (hne : k ≠ atcKey c.callsign) :
    alLookup (stepController now st c).1 k = alLookup st.1 k := by
  cases hlook : alLookup st.1 (atcKey c.callsign) with
  | none =>
      rw [stepController_eq_insert hlook]
      cases hsc : alLookup st.1 k with
      | some v => rw [alLookup_append_left hsc]
      | none =>
          rw [alLookup_append_none hsc]
          exact alLookup_cons_of_neg (beq_eq_false_iff_ne.mpr fun heq => hne heq.symm)
  | some v =>
      rw [stepController_eq_update hlook]
      exact alLookup_alSetLastSeen_other hne

theorem stepPilot_lookup_other {now : Nat} {st : SessionList × List AddedEvent}
    {p : PilotEntry} {k : String} (hne : k ≠ pilotKey p.callsign) :
    alLookup (stepPilot now st p).1 k = alLookup st.1 k := by
  cases hlook : alLookup st.1 (pilotKey p.callsign) with
  | none =>
      rw [stepPilot_eq_insert hlook]
      cases hsc : alLookup st.1 k with
      | some v => rw [alLookup_append_left hsc]
      | none =>
          rw [alLookup_append_none hsc]
          exact alLookup_cons_of_neg (beq_eq_false_iff_ne.mpr fun heq => hne heq.symm)
  | some v =>
      rw [stepPilot_eq_update hlook]
      exact alLookup_alSetLastSeen_other hne

theorem snapshotPass_lookup_not_seen {cs : List ControllerEntry}
    {ps : List PilotEntry} {now : Nat} {sc : SessionList} {k : String}
    (hns : ¬ k ∈ seenIds cs ps) :
    alLookup (snapshotPass cs ps now sc).1 k = alLookup sc k := by
  have hnc : ∀ c ∈ cs, k ≠ atcKey c.callsign := by
    intro c hc heq
    exact hns (List.mem_append_left _ (List.mem_map.mpr ⟨c, hc, heq.symm⟩))
  have hnp : ∀ p ∈ ps, k ≠ pilotKey p.callsign := by
    intro p hp heq
    exact hns (List.mem_append_right _ (List.mem_map.mpr ⟨p, hp, heq.symm⟩))
  unfold snapshotPass
  refine foldl_preserve_mem
    (fun st : SessionList × List AddedEvent => alLookup st.1 k = alLookup sc k)
    (stepPilot now) ps
    (fun st p hp h => by
      show alLookup (stepPilot now st p).1 k = alLookup sc k
      rw [stepPilot_lookup_other (hnp p hp)]
      exact h) _ ?_
  exact foldl_preserve_mem
    (fun st : SessionList × List AddedEvent => alLookup st.1 k = alLookup sc k)
    (stepController now) cs
    (fun st c hc h => by
      show alLookup (stepController now st c).1 k = alLookup sc k
      rw [stepController_lookup_other (hnc c hc)]
      exact h)
    (sc, []) rfl

/-!  The retention cap and statistics algebra. -/

theorem capHistory_sessions (hc : HistoryCache) :
    (capHistory hc).sessions = hc.sessions.take 1000 := by
  unfold capHistory
  by_cases h : 1000 < hc.sessions.length
  · simp [h]
  · simp [h, List.take_of_length_le (Nat.le_of_not_lt h)]

theorem capHistory_stats (hc : HistoryCache) : (capHistory hc).stats = hc.stats := by
  unfold capHistory
  by_cases h : 1000 < hc.sessions.length <;> simp [h]

/-- Componentwise sum of two counter structs. -/
def statsAdd (a b : HistoryStats) : HistoryStats :=
  { totalControllerMinutes := a.totalControllerMinutes + b.totalControllerMinutes,
    totalPilotMinutes := a.totalPilotMinutes + b.totalPilotMinutes,
    totalControllerSessions := a.totalControllerSessions + b.totalControllerSessions,
    totalPilotSessions := a.totalPilotSessions + b.totalPilotSessions }

/-- Contribution of one closed session to the counters. -/
def statContrib (s : HistoricalSession) : HistoryStats :=
  { totalControllerMinutes :=
      if s.stype == .controller && !atisSuffix s.callsign then s.durationMinutes else 0,
    totalPilotMinutes := if s.stype == .pilot then s.durationMinutes else 0,
    totalControllerSessions :=
      if s.stype == .controller && !atisSuffix s.callsign then 1 else 0,
    totalPilotSessions := if s.stype == .pilot then 1 else 0 }

theorem foldl_dur_shift :
    ∀ (l : List HistoricalSession) (n : Nat),
      l.foldl (fun sum s => sum + s.durationMinutes) n =
        n + l.foldl (fun sum s => sum + s.durationMinutes) 0 := by
  intro l
  induction l with
  | nil => intro n; simp
  | cons x rest ih =>
      intro n
      simp only [List.foldl_cons]
      rw [ih (n + x.durationMinutes), ih (0 + x.durationMinutes)]
      omega

theorem statsFold_nil : statsFold [] = ⟨0, 0, 0, 0⟩ := rfl

theorem statsFold_cons (s : HistoricalSession) (l : List HistoricalSession) :
    statsFold (s :: l) = statsAdd (statContrib s) (statsFold l) := by
  unfold statsFold statsAdd statContrib
  cases hc : (s.stype == SType.controller && !atisSuffix s.callsign) with
  | true =>
      have hp : (s.stype == SType.pilot) = false := by
        cases hs : s.stype <;> simp_all
      simp only [List.filter_cons, hc, hp, Bool.false_eq_true, eq_self_iff_true,
        if_true, if_false, List.foldl_cons, List.length_cons]
      rw [foldl_dur_shift
        (List.filter (fun s => s.stype == SType.controller && !atisSuffix s.callsign) l)
        (0 + s.durationMinutes)]
      simp only [HistoryStats.mk.injEq]
      omega
  | false =>
      cases hp : (s.stype == SType.pilot) with
      | true =>
          simp only [List.filter_cons, hc, hp, Bool.false_eq_true, eq_self_iff_true,
            if_true, if_false, List.foldl_cons, List.length_cons]
          rw [foldl_dur_shift
            (List.filter (fun s => s.stype == SType.pilot) l)
            (0 + s.durationMinutes)]
          simp only [HistoryStats.mk.injEq]
          omega
      | false =>
          simp only [List.filter_cons, hc, hp, Bool.false_eq_true, if_false]
          simp

theorem statsFold_append (l₁ l₂ : List HistoricalSession) :
    statsFold (l₁ ++ l₂) = statsAdd (statsFold l₁) (statsFold l₂) := by
  induction l₁ with
  | nil =>
      simp only [List.nil_append, statsFold_nil]
      unfold statsAdd
      simp
  | cons s rest ih =>
      simp only [List.cons_append, statsFold_cons, ih]
      unfold statsAdd
      simp only [HistoryStats.mk.injEq]
      omega

theorem statsFold_reverse (l : List HistoricalSession) :
    statsFold l.reverse = statsFold l := by
  induction l with
  | nil => rfl
  | cons s rest ih =>
      rw [List.reverse_cons, statsFold_append, statsFold_cons, ih]
      unfold statsAdd
      simp only [statsFold_cons, statsFold_nil]
      unfold statsAdd
      simp only [HistoryStats.mk.injEq]
      omega

/-- One closure's stats bump is the closed record's contribution. -/
theorem bumpStats_eq (st : HistoryStats) (now : Nat) (s : CachedSession) :
    bumpStats st s = statsAdd st (statContrib (closeRemoved now s)) := by
  cases hs : s.stype with
  | controller =>
      cases ha : atisSuffix s.callsign with
      | true => simp [bumpStats, statsAdd, statContrib, closeRemoved, closeSession, hs, ha]
      | false => simp [bumpStats, statsAdd, statContrib, closeRemoved, closeSession, hs, ha]
  | pilot => simp [bumpStats, statsAdd, statContrib, closeRemoved, closeSession, hs]

/-- The per-closure increments of the sweep equal the previous counters plus
the idempotent fold over the removed records. -/
theorem bumpFold_eq (now : Nat) :
    ∀ (entries : SessionList) (st : HistoryStats),
      entries.foldl (fun acc kv => bumpStats acc kv.2) st =
        statsAdd st (statsFold (entries.map (fun kv => closeRemoved now kv.2))) := by
  intro entries
  induction entries with
  | nil =>
      intro st
      simp only [List.foldl_nil, List.map_nil, statsFold_nil]
      unfold statsAdd
      cases st
      simp
  | cons kv rest ih =>
      intro st
      simp only [List.foldl_cons, List.map_cons, statsFold_cons]
      rw [ih, bumpStats_eq st now kv.2]
      unfold statsAdd
      simp only [HistoryStats.mk.injEq]
      omega

/-- The removed copies and the history copies of the same closures have
identical counter folds (they differ only in the removedAt stamp). -/
theorem statsFold_closures (now : Nat) (entries : SessionList) :
    statsFold (entries.map (fun kv => closeRemoved now kv.2)) =
      statsFold (entries.map (fun kv => closeSession kv.2)) := by
  induction entries with
  | nil => rfl
  | cons kv rest ih =>
      simp only [List.map_cons, statsFold_cons, ih]
      rfl

/-- Outcome of one iteration of the live collector loop. -/
inductive LoopStep where
  | next
  | exitProcess (code : Nat)
deriving DecidableEq, Repr

/-- runOnce of the live collector: the whole cycle body runs inside one try;
a normally completed body falls through to the next interval, any thrown
error reaches the catch block, which logs and calls process.exit(1). -/
def runOnceStep (cycle : Except String Unit) : LoopStep :=
  match cycle with
  | .ok _ => .next
  | .error _ => .exitProcess 1

/-- The collector's while-true loop over a sequence of cycle outcomes:
none means every supplied cycle ran and the loop is still going; some code
means the process terminated with that exit code, the later cycles never
running. -/
def pollLoop : List (Except String Unit) → Option Nat
  | [] => none
  | c :: rest =>
      match runOnceStep c with
      | .next => pollLoop rest
      | .exitProcess code => some code

/-!  Component characterizations of one updateSessions cycle. -/

theorem updateSessions_sessionCache (cs : List ControllerEntry)
    (ps : List PilotEntry) (now : Nat) (sc : SessionList) (hc : HistoryCache) :
    (updateSessions cs ps now sc hc).sessionCache =
      (snapshotPass cs ps now sc).1.filter
        (fun kv => !closeTest now (seenIds cs ps) kv) := by
  simp only [updateSessions]
  rw [closePass_eq]

theorem updateSessions_removed (cs : List ControllerEntry)
    (ps : List PilotEntry) (now : Nat) (sc : SessionList) (hc : HistoryCache) :
    (updateSessions cs ps now sc hc).removed =
      ((snapshotPass cs ps now sc).1.filter (closeTest now (seenIds cs ps))).map
        (fun kv => closeRemoved now kv.2) := by
  simp only [updateSessions]
  rw [closePass_eq]

theorem updateSessions_added (cs : List ControllerEntry)
    (ps : List PilotEntry) (now : Nat) (sc : SessionList) (hc : HistoryCache) :
    (updateSessions cs ps now sc hc).added = (snapshotPass cs ps now sc).2 := by
  simp only [updateSessions]

theorem updateSessions_history_sessions (cs : List ControllerEntry)
    (ps : List PilotEntry) (now : Nat) (sc : SessionList) (hc : HistoryCache) :
    (updateSessions cs ps now sc hc).history.sessions =
      ((((snapshotPass cs ps now sc).1.filter (closeTest now (seenIds cs ps))).map
          (fun kv => closeSession kv.2)).reverse ++ hc.sessions).take 1000 := by
  simp only [updateSessions]
  rw [closePass_eq, capHistory_sessions]

theorem updateSessions_history_stats (cs : List ControllerEntry)
    (ps : List PilotEntry) (now : Nat) (sc : SessionList) (hc : HistoryCache) :
    (updateSessions cs ps now sc hc).history.stats =
      ((snapshotPass cs ps now sc).1.filter (closeTest now (seenIds cs ps))).foldl
        (fun st kv => bumpStats st kv.2) hc.stats := by
  simp only [updateSessions]
  rw [closePass_eq, capHistory_stats]

/-!  List contains bridging. -/

theorem contains_true_of_mem : ∀ {l : List String} {a : String},
    a ∈ l → l.contains a = true := by
  intro l
  induction l with
  | nil => intro a h; cases h
  | cons x rest ih =>
      intro a h
      simp only [List.contains, List.elem]
      cases hx : (a == x) with
      | true => rfl
      | false =>
          rcases List.mem_cons.mp h with heq | hmem
          · subst heq
            simp at hx
          · exact ih hmem

theorem contains_false_of_not_mem : ∀ {l : List String} {a : String},
    ¬ a ∈ l → l.contains a = false := by
  intro l
  induction l with
  | nil => intro a _; rfl
  | cons x rest ih =>
      intro a h
      simp only [List.contains, List.elem]
      cases hx : (a == x) with
      | true =>
          exact absurd (List.mem_cons.mpr (Or.inl (beq_iff_eq.mp hx))) h
      | false => exact ih (fun hmem => h (List.mem_cons_of_mem _ hmem))

/-- Commutation of filter with map, used on the removed list. -/
theorem filter_map_comm {α β : Type} (f : α → β) (q : β → Bool) :
    ∀ (l : List α), (l.map f).filter q = (l.filter (fun x => q (f x))).map f := by
  intro l
  induction l with
  | nil => rfl
  | cons x rest ih =>
      simp only [List.map_cons, List.filter_cons]
      cases hq : q (f x) with
      | true => simp only [if_true, List.map_cons, ih]
      | false => simp only [Bool.false_eq_true, if_false, ih]

/-- Start timestamp of a durable-store insert. -/
def dbWriteStart : DbWrite → Nat
  | .controllerRow r => r.start
  | .pilotRow r => r.start

/-- End timestamp of a durable-store insert. -/
def dbWriteEnd : DbWrite → Nat
  | .controllerRow r => r.endT
  | .pilotRow r => r.endT

/-- Minutes of a durable-store insert. -/
def dbWriteMinutes : DbWrite → Nat
  | .controllerRow r => r.minutes
  | .pilotRow r => r.minutes

/-- Removal of the removedAt stamp, recovering the history copy of a
closure. -/
def stripRemovedAt (h : HistoricalSession) : HistoricalSession :=
  { h with removedAt := none }

/-- C9: the history store is capped at 1000 sessions after a reconciliation
and after a synchronizer run; the retained entries are the most recent ones
(this cycle's closures newest-first in front of the previous list, truncated
from the back, i.e. the oldest end). -/
theorem history_capped_at_1000 (cs : List ControllerEntry) (ps : List PilotEntry)
    (now : Nat) (sc : SessionList) (hc : HistoryCache)
    (dbCtrl : List DbControllerSession) (dbPilots : List DbPilotSession) :
    (updateSessions cs ps now sc hc).history.sessions =
      (((updateSessions cs ps now sc hc).removed.map stripRemovedAt).reverse
        ++ hc.sessions).take 1000 ∧
    (updateSessions cs ps now sc hc).history.sessions.length ≤ 1000 ∧
    (syncDatabaseToCache dbCtrl dbPilots hc).sessions =
      (syncMergePhase dbCtrl dbPilots hc).sessions.take 1000 ∧
    (syncDatabaseToCache dbCtrl dbPilots hc).sessions.length ≤ 1000 := by
  have hrm : ((updateSessions cs ps now sc hc).removed.map stripRemovedAt) =
      ((snapshotPass cs ps now sc).1.filter (closeTest now (seenIds cs ps))).map
        (fun kv => closeSession kv.2) := by
    rw [updateSessions_removed, List.map_map]
    rfl
  have hsync : (syncDatabaseToCache dbCtrl dbPilots hc).sessions =
      (syncMergePhase dbCtrl dbPilots hc).sessions.take 1000 := by
    unfold syncDatabaseToCache
    by_cases h : 1000 < (syncMergePhase dbCtrl dbPilots hc).sessions.length
    · simp [h]
    · simp [h, List.take_of_length_le (Nat.le_of_not_lt h)]
  refine ⟨?_, ?_, hsync, ?_⟩
  · rw [updateSessions_history_sessions, hrm]
  · rw [updateSessions_history_sessions]
    exact List.length_take_le _ _
  · rw [hsync]
    exact List.length_take_le _ _

/-- C3: every record closed by the reconciliation carries
durationMinutes = max(1, round((endTime-startTime)/60000)), hence at least 1
minute, and endTime at or after startTime whenever the open sessions
satisfied lastSeen at or after startTime; the database-side staleness sweep
of the secondary ingest path computes its minutes by the same clamp. -/
theorem closed_session_duration_clamp (cs : List ControllerEntry)
    (ps : List PilotEntry) (now : Nat) (sc : SessionList) (hc : HistoryCache)
    (row : OpenSessionRow)
    (hmono : ∀ kv ∈ sc, kv.2.startTime ≤ kv.2.lastSeen)
    (hrow : row.startedAt ≤ row.lastSeenAt) :
    (∀ h ∈ (updateSessions cs ps now sc hc).removed,
        h.durationMinutes = max 1 (jsRoundMinutes (h.endTime - h.startTime)) ∧
        1 ≤ h.durationMinutes ∧ h.startTime ≤ h.endTime) ∧
    dbWriteMinutes (closeStaleOpenSession row) =
      max 1 (jsRoundMinutes (dbWriteEnd (closeStaleOpenSession row) -
        dbWriteStart (closeStaleOpenSession row))) ∧
    1 ≤ dbWriteMinutes (closeStaleOpenSession row) ∧
    dbWriteStart (closeStaleOpenSession row) ≤ dbWriteEnd (closeStaleOpenSession row) := by
  constructor
  · intro h hmem
    rw [updateSessions_removed] at hmem
    obtain ⟨kv, hkv, heq⟩ := List.mem_map.mp hmem
    have hkvS1 := List.mem_of_mem_filter hkv
    have hct := List.of_mem_filter hkv
    have hsrc : kv ∈ sc := by
      rcases snapshotPass_mem_inv hkvS1 with hseen | hmem'
      · exfalso
        unfold closeTest at hct
        rw [contains_true_of_mem hseen] at hct
        simp at hct
      · exact hmem'
    subst heq
    refine ⟨rfl, le_max_left _ _, ?_⟩
    exact hmono kv hsrc
  · cases hr : row.role with
    | controller =>
        refine ⟨?_, ?_, ?_⟩ <;>
          simp [closeStaleOpenSession, hr, dbWriteMinutes, dbWriteStart, dbWriteEnd,
            durationClamp, hrow, le_max_left]
    | pilot =>
        refine ⟨?_, ?_, ?_⟩ <;>
          simp [closeStaleOpenSession, hr, dbWriteMinutes, dbWriteStart, dbWriteEnd,
            durationClamp, hrow, le_max_left]

/-- Stale open pilot session used to exercise the duration clamp. -/
def c3Session : CachedSession :=
  { id := "pilot-ABC", stype := .pilot, cid := 7, name := "W", callsign := "ABC",
    startTime := 0, lastSeen := 90000 }

/-- Stale durable open-session row used to exercise the secondary sweep. -/
def c3Row : OpenSessionRow :=
  { role := .controller, callsign := "OPKR_CTR", cid := some 1,
    startedAt := 0, lastSeenAt := 150000 }

/-- Witness for the duration-clamp theorem at a concrete stale session. -/
theorem closed_session_duration_clamp_witness :
    (closeRemoved 300000 c3Session).durationMinutes =
      max 1 (jsRoundMinutes ((closeRemoved 300000 c3Session).endTime -
        (closeRemoved 300000 c3Session).startTime)) ∧
    1 ≤ (closeRemoved 300000 c3Session).durationMinutes ∧
    (closeRemoved 300000 c3Session).startTime ≤ (closeRemoved 300000 c3Session).endTime ∧
    dbWriteMinutes (closeStaleOpenSession c3Row) =
      max 1 (jsRoundMinutes (dbWriteEnd (closeStaleOpenSession c3Row) -
        dbWriteStart (closeStaleOpenSession c3Row))) := by
  have h := closed_session_duration_clamp [] [] 300000 [("pilot-ABC", c3Session)]
    ⟨[], ⟨0, 0, 0, 0⟩⟩ c3Row (by decide) (by decide)
  exact ⟨(h.1 _ (by decide)).1, (h.1 _ (by decide)).2.1, (h.1 _ (by decide)).2.2, h.2.1⟩

/-- sessionKey depends only on category and callsign. -/
theorem sessionKey_congr {a b : CachedSession} (hs : a.stype = b.stype)
    (hc : a.callsign = b.callsign) : sessionKey a = sessionKey b := by
  unfold sessionKey
  rw [hs, hc]

/-- C10: a closed ATIS controller session is still appended to the ephemeral
history store, while saveSessionToDatabase returns before any insert for it,
for every environment (configured or not, connected or not). -/
theorem atis_closure_cached_not_persisted (cs : List ControllerEntry)
    (ps : List PilotEntry) (now : Nat) (sc : SessionList) (hc : HistoryCache)
    (s : CachedSession)
    (hmem : (sessionKey s, s) ∈ sc)
    (habs : ¬ sessionKey s ∈ seenIds cs ps)
    (hst : staleThreshold < now - s.lastSeen)
    (hctrl : s.stype = .controller)
    (hatis : atisSuffix s.callsign = true)
    (hlen : (updateSessions cs ps now sc hc).removed.length + hc.sessions.length ≤ 1000) :
    closeSession s ∈ (updateSessions cs ps now sc hc).history.sessions ∧
    ∀ dbConfigured connectOk : Bool,
      saveSessionToDatabase dbConfigured connectOk (closeSession s) = none := by
  have hS1 : (sessionKey s, s) ∈ (snapshotPass cs ps now sc).1 :=
    snapshotPass_mem_of_not_seen hmem habs
  have hct : closeTest now (seenIds cs ps) (sessionKey s, s) = true := by
    unfold closeTest
    rw [contains_false_of_not_mem habs]
    simp [hst]
  have hfil : (sessionKey s, s) ∈
      (snapshotPass cs ps now sc).1.filter (closeTest now (seenIds cs ps)) :=
    List.mem_filter.mpr ⟨hS1, hct⟩
  have hlen' :
      ((((snapshotPass cs ps now sc).1.filter (closeTest now (seenIds cs ps))).map
        (fun kv => closeSession kv.2)).reverse ++ hc.sessions).length ≤ 1000 := by
    have hrl : (updateSessions cs ps now sc hc).removed.length =
        ((snapshotPass cs ps now sc).1.filter (closeTest now (seenIds cs ps))).length := by
      rw [updateSessions_removed, List.length_map]
    simp only [List.length_append, List.length_reverse, List.length_map]
    omega
  constructor
  · rw [updateSessions_history_sessions, List.take_of_length_le hlen']
    exact List.mem_append_left _ (List.mem_reverse.mpr
      (List.mem_map.mpr ⟨(sessionKey s, s), hfil, rfl⟩))
  · intro dbConfigured connectOk
    cases dbConfigured <;> cases connectOk <;>
      simp [saveSessionToDatabase, closeSession, hctrl, hatis]

/-- Stale ATIS controller session for the persistence-skip witness. -/
def c10Session : CachedSession :=
  { id := "atc-OPKC_ATIS", stype := .controller, cid := 9, name := "A",
    callsign := "OPKC_ATIS", frequency := some "126.75",
    startTime := 0, lastSeen := 60000 }

/-- Witness: the concrete ATIS closure lands in the history cache and fires
no database insert even with a configured, connected database. -/
theorem atis_closure_cached_not_persisted_witness :
    closeSession c10Session ∈
      (updateSessions [] [] 300000 [("atc-OPKC_ATIS", c10Session)]
        ⟨[], ⟨0, 0, 0, 0⟩⟩).history.sessions ∧
    saveSessionToDatabase true true (closeSession c10Session) = none := by
  have h := atis_closure_cached_not_persisted [] [] 300000
    [("atc-OPKC_ATIS", c10Session)] ⟨[], ⟨0, 0, 0, 0⟩⟩ c10Session
    (by decide) (by decide) (by decide) (by decide) (by decide) (by decide)
  exact ⟨h.1, h.2 true true⟩

/-- C1: an open session absent from the snapshot is closed exactly once, at
the first cycle whose now strictly exceeds lastSeen by more than the stale
threshold: in the stale case it vanishes from the session store and the
removed list carries exactly one closure for its identity, whose endTime is
the stored lastSeen (not now) and whose startTime is the stored startTime;
in the grace case it stays untouched in the store and no closure for its
identity is emitted. -/
theorem stale_session_closed_exactly_once (cs : List ControllerEntry)
    (ps : List PilotEntry) (now : Nat) (sc : SessionList) (hc : HistoryCache)
    (s : CachedSession)
    (hnd : (sc.map Prod.fst).Nodup)
    (hgood : ∀ kv ∈ sc, kv.1 = sessionKey kv.2)
    (hmem : (sessionKey s, s) ∈ sc)
    (habs : ¬ sessionKey s ∈ seenIds cs ps) :
    (staleThreshold < now - s.lastSeen →
      alLookup (updateSessions cs ps now sc hc).sessionCache (sessionKey s) = none ∧
      ((updateSessions cs ps now sc hc).removed.filter
        (fun h => h.stype == s.stype && h.callsign == s.callsign)) =
          [closeRemoved now s] ∧
      (closeRemoved now s).endTime = s.lastSeen ∧
      (closeRemoved now s).startTime = s.startTime) ∧
    (now - s.lastSeen ≤ staleThreshold →
      alLookup (updateSessions cs ps now sc hc).sessionCache (sessionKey s) = some s ∧
      ∀ h ∈ (updateSessions cs ps now sc hc).removed,
        ¬ (h.stype = s.stype ∧ h.callsign = s.callsign)) := by
  have hS1 : (sessionKey s, s) ∈ (snapshotPass cs ps now sc).1 :=
    snapshotPass_mem_of_not_seen hmem habs
  have hndS1 : ((snapshotPass cs ps now sc).1.map Prod.fst).Nodup :=
    snapshotPass_nodupKeys hnd
  have hgoodS1 : ∀ kv ∈ (snapshotPass cs ps now sc).1, kv.1 = sessionKey kv.2 :=
    snapshotPass_goodKeys hgood
  have hcont : (seenIds cs ps).contains (sessionKey s) = false :=
    contains_false_of_not_mem habs
  have huniq : ∀ kv ∈ (snapshotPass cs ps now sc).1,
      kv.1 = sessionKey s → kv = (sessionKey s, s) :=
    fun kv hkv hk => nodup_key_unique hndS1 hS1 hkv hk
  constructor
  · intro hst
    have hct : closeTest now (seenIds cs ps) (sessionKey s, s) = true := by
      unfold closeTest
      rw [hcont]
      simp [hst]
    refine ⟨?_, ?_, rfl, rfl⟩
    · rw [updateSessions_sessionCache]
      apply alLookup_filter_none
      intro kv hkv hk
      rw [huniq kv hkv hk, hct]
      rfl
    · rw [updateSessions_removed, filter_map_comm, List.filter_filter]
      have hsingle :
          (snapshotPass cs ps now sc).1.filter
            (fun a => ((closeRemoved now a.2).stype == s.stype &&
              (closeRemoved now a.2).callsign == s.callsign) &&
              closeTest now (seenIds cs ps) a) = [(sessionKey s, s)] := by
        apply filter_eq_singleton_of_nodup hndS1 hS1
        · simp [hct]
          exact ⟨rfl, rfl⟩
        · intro kv hkv hq
          simp only [Bool.and_eq_true, beq_iff_eq] at hq
          have hkey := hgoodS1 kv hkv
          rw [hkey]
          exact sessionKey_congr hq.1.1 hq.1.2
      rw [hsingle]
      rfl
  · intro hgr
    have hctf : closeTest now (seenIds cs ps) (sessionKey s, s) = false := by
      unfold closeTest
      rw [hcont]
      simp [Nat.not_lt.mpr hgr]
    constructor
    · rw [updateSessions_sessionCache]
      rw [alLookup_filter_of_all (fun kv hkv hk => by rw [huniq kv hkv hk, hctf]; rfl)]
      exact alLookup_of_mem_nodup hndS1 hS1
    · intro h hmem' hmatch
      rw [updateSessions_removed] at hmem'
      obtain ⟨kv, hkv, heq⟩ := List.mem_map.mp hmem'
      have hkvS1 := List.mem_of_mem_filter hkv
      have hkvct := List.of_mem_filter hkv
      have hkey : kv.1 = sessionKey s := by
        have hkey' := hgoodS1 kv hkvS1
        rw [hkey']
        refine sessionKey_congr ?_ ?_
        · have : (closeRemoved now kv.2).stype = kv.2.stype := rfl
          rw [← this, heq]
          exact hmatch.1
        · have : (closeRemoved now kv.2).callsign = kv.2.callsign := rfl
          rw [← this, heq]
          exact hmatch.2
      rw [huniq kv hkvS1 hkey] at hkvct
      rw [hctf] at hkvct
      cases hkvct

/-- Stale controller session for the exactly-once-closure witness. -/
def c1Session : CachedSession :=
  { id := "atc-OPKR_CTR", stype := .controller, cid := 11, name := "B",
    callsign := "OPKR_CTR", frequency := some "125.10",
    startTime := 0, lastSeen := 100000 }

/-- Witness: the concrete stale session is removed from the store and
appears exactly once in the removed list, closed at its lastSeen. -/
theorem stale_session_closed_exactly_once_witness :
    alLookup (updateSessions [] [] 300000 [(sessionKey c1Session, c1Session)]
      ⟨[], ⟨0, 0, 0, 0⟩⟩).sessionCache (sessionKey c1Session) = none ∧
    ((updateSessions [] [] 300000 [(sessionKey c1Session, c1Session)]
      ⟨[], ⟨0, 0, 0, 0⟩⟩).removed.filter
        (fun h => h.stype == c1Session.stype && h.callsign == c1Session.callsign)) =
          [closeRemoved 300000 c1Session] ∧
    (closeRemoved 300000 c1Session).endTime = c1Session.lastSeen ∧
    (closeRemoved 300000 c1Session).startTime = c1Session.startTime :=
  (stale_session_closed_exactly_once [] [] 300000
    [(sessionKey c1Session, c1Session)] ⟨[], ⟨0, 0, 0, 0⟩⟩ c1Session
    (by decide) (by decide) (by decide) (by decide)).1 (by decide)

/-- C2: reconciling the same snapshot again, immediately, on the state the
first reconciliation produced, creates no new open sessions and closes
nothing: every observed identity is already present and merely has its
lastSeen refreshed, and every retained absent session is still inside the
grace window at the same instant. -/
theorem repeat_reconcile_idempotent (cs : List ControllerEntry)
    (ps : List PilotEntry) (now : Nat) (sc : SessionList) (hc : HistoryCache) :
    (updateSessions cs ps now (updateSessions cs ps now sc hc).sessionCache
      (updateSessions cs ps now sc hc).history).added = [] ∧
    (updateSessions cs ps now (updateSessions cs ps now sc hc).sessionCache
      (updateSessions cs ps now sc hc).history).removed = [] := by
  have hpres : ∀ k ∈ seenIds cs ps,
      (alLookup (updateSessions cs ps now sc hc).sessionCache k).isSome := by
    intro k hk
    rw [updateSessions_sessionCache]
    rw [alLookup_filter_of_all (fun kv hkv hkey => by
      unfold closeTest
      rw [hkey, contains_true_of_mem hk]
      rfl)]
    exact snapshotPass_seen_isSome hk
  have haddc : ∀ c ∈ cs,
      (alLookup (updateSessions cs ps now sc hc).sessionCache (atcKey c.callsign)).isSome :=
    fun c hc' => hpres _ (List.mem_append_left _ (List.mem_map.mpr ⟨c, hc', rfl⟩))
  have haddp : ∀ p ∈ ps,
      (alLookup (updateSessions cs ps now sc hc).sessionCache (pilotKey p.callsign)).isSome :=
    fun p hp' => hpres _ (List.mem_append_right _ (List.mem_map.mpr ⟨p, hp', rfl⟩))
  constructor
  · rw [updateSessions_added]
    exact snapshotPass_added_nil haddc haddp
  · rw [updateSessions_removed]
    have hnil : (snapshotPass cs ps now
        (updateSessions cs ps now sc hc).sessionCache).1.filter
          (closeTest now (seenIds cs ps)) = [] := by
      rw [List.filter_eq_nil]
      intro kv hkv
      rcases snapshotPass_mem_inv hkv with hseen | hold
      · unfold closeTest
        rw [contains_true_of_mem hseen]
        simp
      · rw [updateSessions_sessionCache] at hold
        have hnc := List.of_mem_filter hold
        simp only [Bool.not_eq_true'] at hnc
        simp [hnc]
    rw [hnil]
    rfl

/-- Snapshot row carrying changed attributes for a known callsign. -/
def c4Entry : ControllerEntry :=
  ⟨500, "New Name", "OPKC_TWR", "121.50", "TWR"⟩

/-- Stored open session for the same callsign with the old attributes. -/
def c4Session : CachedSession :=
  { id := "atc-OPKC_TWR", stype := .controller, cid := 500, name := "Old Name",
    callsign := "OPKC_TWR", frequency := some "118.30", facility := some "TWR",
    startTime := 0, lastSeen := 0 }

/-- Counterexample to C4 as stated: after reconciling a snapshot whose row
carries frequency "121.50" and name "New Name" for an already-open session,
the stored record still holds the old frequency and name; only lastSeen
moved. -/
theorem session_attributes_not_refreshed_counterexample :
    (alLookup (updateSessions [c4Entry] [] 60000 [("atc-OPKC_TWR", c4Session)]
        ⟨[], ⟨0, 0, 0, 0⟩⟩).sessionCache "atc-OPKC_TWR").map
      (fun v => (v.lastSeen, v.startTime, v.frequency, v.name)) =
        some (60000, 0, some "118.30", "Old Name") ∧
    c4Entry.frequency = "121.50" ∧ c4Entry.name = "New Name" ∧
    (some "118.30" : Option String) ≠ some c4Entry.frequency ∧
    "Old Name" ≠ c4Entry.name := by
  decide

/-- C4 amended: for an identity already in the open-session map the
reconciliation sets lastSeenAt to now and leaves every other stored field,
startedAt and the category attributes included, unchanged (a separate
fire-and-forget roster call receives the fresh display name). -/
theorem existing_session_refreshes_lastSeen_only (c : ControllerEntry)
    (now : Nat) (sc : SessionList) (hc : HistoryCache) (s : CachedSession)
    (hlook : alLookup sc (atcKey c.callsign) = some s) :
    alLookup (updateSessions [c] [] now sc hc).sessionCache (atcKey c.callsign) =
      some { s with lastSeen := now } := by
  rw [updateSessions_sessionCache]
  have hsp : (snapshotPass [c] [] now sc).1 =
      alSetLastSeen sc (atcKey c.callsign) now := by
    unfold snapshotPass
    simp only [List.foldl_cons, List.foldl_nil]
    rw [stepController_eq_update hlook]
  have hseen : (seenIds [c] []).contains (atcKey c.callsign) = true :=
    contains_true_of_mem (by simp [seenIds])
  rw [alLookup_filter_of_all (fun kv hkv hkey => by
    unfold closeTest
    rw [hkey, hseen]
    rfl)]
  rw [hsp, alLookup_alSetLastSeen_self, hlook]
  rfl

/-- Witness: the refresh-only behavior instantiated on the concrete store. -/
theorem existing_session_refreshes_lastSeen_only_witness :
    alLookup (updateSessions [c4Entry] [] 60000 [("atc-OPKC_TWR", c4Session)]
      ⟨[], ⟨0, 0, 0, 0⟩⟩).sessionCache (atcKey c4Entry.callsign) =
        some { c4Session with lastSeen := 60000 } :=
  existing_session_refreshes_lastSeen_only c4Entry 60000
    [("atc-OPKC_TWR", c4Session)] ⟨[], ⟨0, 0, 0, 0⟩⟩ c4Session (by decide)

/-- One old closed pilot session filling the history to its cap. -/
def c5OldSession : HistoricalSession :=
  { id := "pilot-P9-0", stype := .pilot, cid := 9, name := "Q", callsign := "P9",
    startTime := 0, endTime := 60000, durationMinutes := 1, date := ⟨1970, 1, 1⟩ }

/-- Stale open pilot session whose closure overflows the cap. -/
def c5Stale : CachedSession :=
  { id := "pilot-PX", stype := .pilot, cid := 7, name := "R", callsign := "PX",
    startTime := 0, lastSeen := 60000 }

/-- History cache at the 1000-entry cap with counters matching the fold. -/
def c5Full : HistoryCache :=
  { sessions := List.replicate 1000 c5OldSession, stats := ⟨0, 1000, 0, 1000⟩ }

set_option maxRecDepth 10000 in
/-- Counterexample to C5 as stated: starting from a capped history whose
counters match the fold, one more closure drops the oldest stored session
but keeps its contribution in the incremented counters, so after the
mutation the counters no longer equal the fold over the stored list. -/
theorem history_stats_drift_counterexample :
    c5Full.stats = statsFold c5Full.sessions ∧
    (updateSessions [] [] 300000 [("pilot-PX", c5Stale)] c5Full).history.stats.totalPilotMinutes = 1001 ∧
    (statsFold (updateSessions [] [] 300000 [("pilot-PX", c5Stale)]
      c5Full).history.sessions).totalPilotMinutes = 1000 ∧
    (updateSessions [] [] 300000 [("pilot-PX", c5Stale)] c5Full).history.stats ≠
      statsFold (updateSessions [] [] 300000 [("pilot-PX", c5Stale)] c5Full).history.sessions := by
  refine ⟨by decide, by decide, by decide, ?_⟩
  intro heq
  have h1 : (updateSessions [] [] 300000 [("pilot-PX", c5Stale)] c5Full).history.stats.totalPilotMinutes = 1001 := by decide
  have h2 : (statsFold (updateSessions [] [] 300000 [("pilot-PX", c5Stale)]
      c5Full).history.sessions).totalPilotMinutes = 1000 := by decide
  rw [heq, h2] at h1
  cases h1

theorem statsAdd_comm (a b : HistoryStats) : statsAdd a b = statsAdd b a := by
  unfold statsAdd
  simp only [HistoryStats.mk.injEq]
  omega

/-- C5 amended: a reconciliation updates the counters by per-closure
increments, which amount to the previous counters plus the idempotent fold
over this cycle's removed records; when the previous counters matched the
fold over the stored list and the cap is not crossed, the updated counters
still match the fold, but a cap overflow leaves the dropped entries'
contributions in the counters. -/
theorem history_stats_increment_characterization (cs : List ControllerEntry)
    (ps : List PilotEntry) (now : Nat) (sc : SessionList) (hc : HistoryCache) :
    (updateSessions cs ps now sc hc).history.stats =
      statsAdd hc.stats (statsFold (updateSessions cs ps now sc hc).removed) ∧
    (hc.stats = statsFold hc.sessions →
      hc.sessions.length + (updateSessions cs ps now sc hc).removed.length ≤ 1000 →
      (updateSessions cs ps now sc hc).history.stats =
        statsFold (updateSessions cs ps now sc hc).history.sessions) := by
  have h1 : (updateSessions cs ps now sc hc).history.stats =
      statsAdd hc.stats (statsFold (updateSessions cs ps now sc hc).removed) := by
    rw [updateSessions_history_stats, bumpFold_eq now, updateSessions_removed]
  refine ⟨h1, fun hinv hlen => ?_⟩
  have hrl : (updateSessions cs ps now sc hc).removed.length =
      ((snapshotPass cs ps now sc).1.filter (closeTest now (seenIds cs ps))).length := by
    rw [updateSessions_removed, List.length_map]
  have hlen' :
      ((((snapshotPass cs ps now sc).1.filter (closeTest now (seenIds cs ps))).map
        (fun kv => closeSession kv.2)).reverse ++ hc.sessions).length ≤ 1000 := by
    simp only [List.length_append, List.length_reverse, List.length_map]
    omega
  rw [updateSessions_history_sessions, List.take_of_length_le hlen',
    statsFold_append, statsFold_reverse, h1, hinv, updateSessions_removed,
    statsFold_closures]
  exact statsAdd_comm _ _

/-- Small history with counters matching the fold, for the C5 witness. -/
def c5wHistory : HistoryCache :=
  { sessions := [c5OldSession], stats := ⟨0, 1, 0, 1⟩ }

/-- Witness: the increment characterization and the within-cap agreement on
a concrete small state. -/
theorem history_stats_increment_characterization_witness :
    (updateSessions [] [] 300000 [("pilot-PX", c5Stale)] c5wHistory).history.stats =
      statsAdd c5wHistory.stats
        (statsFold (updateSessions [] [] 300000 [("pilot-PX", c5Stale)] c5wHistory).removed) ∧
    (updateSessions [] [] 300000 [("pilot-PX", c5Stale)] c5wHistory).history.stats =
      statsFold (updateSessions [] [] 300000 [("pilot-PX", c5Stale)] c5wHistory).history.sessions := by
  have h := history_stats_increment_characterization [] [] 300000
    [("pilot-PX", c5Stale)] c5wHistory
  exact ⟨h.1, h.2 (by decide) (by decide)⟩

/-- C6: for a history made of one pseudo (ATIS) controller session and one
normal controller session of equal duration on the same date, every
aggregation site counts only the normal session: the period buckets of
getAggregatedStats for every grouping carry exactly the normal session's
minutes and one session, and the recomputed totals used by the stats API
route and the synchronizer (statsFold) likewise count only the normal
session. -/
theorem pseudo_session_excluded_from_aggregates (g : GroupBy)
    (a n : HistoricalSession)
    (hactrl : a.stype = .controller) (haatis : atisSuffix a.callsign = true)
    (hnctrl : n.stype = .controller) (hnatis : atisSuffix n.callsign = false)
    (hdate : a.date = n.date) (hdur : a.durationMinutes = n.durationMinutes) :
    getAggregatedStats g [a, n] =
      [(periodKey g n.date,
        { controllerMinutes := n.durationMinutes, controllerSessions := 1,
          pilotMinutes := 0, pilotSessions := 0 })] ∧
    statsFold [a, n] =
      { totalControllerMinutes := n.durationMinutes, totalPilotMinutes := 0,
        totalControllerSessions := 1, totalPilotSessions := 0 } := by
  constructor
  · have hstep1 : groupStep g [] a = [(periodKey g n.date, ⟨0, 0, 0, 0⟩)] := by
      unfold groupStep bucketUpdate
      simp [hactrl, haatis, hdate]
    have hstep2 : groupStep g [(periodKey g n.date, ⟨0, 0, 0, 0⟩)] n =
        [(periodKey g n.date,
          { controllerMinutes := n.durationMinutes, controllerSessions := 1,
            pilotMinutes := 0, pilotSessions := 0 })] := by
      unfold groupStep bucketUpdate
      simp [hnctrl, hnatis]
    unfold getAggregatedStats
    simp only [List.foldl_cons, List.foldl_nil, hstep1, hstep2]
    rfl
  · rw [statsFold_cons, statsFold_cons, statsFold_nil]
    unfold statsAdd statContrib
    simp [hactrl, haatis, hnctrl, hnatis, hdur]

/-- Concrete ATIS and normal controller sessions of equal duration. -/
def c6Atis : HistoricalSession :=
  { id := "a", stype := .controller, cid := 1, name := "N",
    callsign := "OPKC_ATIS", startTime := 0, endTime := 300000,
    durationMinutes := 5, date := ⟨2024, 1, 15⟩ }

/-- Normal counterpart of the concrete ATIS session. -/
def c6Normal : HistoricalSession :=
  { id := "b", stype := .controller, cid := 2, name := "M",
    callsign := "OPKR_CTR", startTime := 0, endTime := 300000,
    durationMinutes := 5, date := ⟨2024, 1, 15⟩ }

/-- Witness: the exclusion at both aggregation sites on the concrete pair,
for the day grouping. -/
theorem pseudo_session_excluded_from_aggregates_witness :
    getAggregatedStats .day [c6Atis, c6Normal] =
      [(periodKey .day c6Normal.date,
        { controllerMinutes := c6Normal.durationMinutes, controllerSessions := 1,
          pilotMinutes := 0, pilotSessions := 0 })] ∧
    statsFold [c6Atis, c6Normal] =
      { totalControllerMinutes := c6Normal.durationMinutes, totalPilotMinutes := 0,
        totalControllerSessions := 1, totalPilotSessions := 0 } :=
  pseudo_session_excluded_from_aggregates .day c6Atis c6Normal
    (by decide) (by decide) (by decide) (by decide) (by decide) (by decide)

/-- Roster member with a recorded non-ATIS last callsign. -/
def c7Member : MemberInfo :=
  { cid := 42, name := some "X", rating := 3, ratingName := "S2",
    pilotRating := 0, pilotRatingName := "None", subdivision := "PAK",
    division := "WA", region := "MENA", lastCallsign := some "OPKR_CTR" }

/-- Durable-store controller session with a lower-case ATIS callsign, as the
backfill scripts can insert (their callsign pattern is case-insensitive) and
the live path's upper-cased skip never filters out. -/
def c7DbRow : DbControllerSession :=
  { cid := some 42, callsign := "OPKC_atis", fir := some "OPKC",
    start := 1000, endT := 2000, minutes := 1 }

/-- C7 failing input, evaluated: a member sighted on an ATIS position, with
empty session and history caches and one lower-case "_atis" row in the
database, gets lastCallsign overwritten with that row's callsign — a value
the system's own (case-insensitive) pseudo-session test classifies as ATIS —
because the database query's endsWith "_ATIS" filter is case-sensitive,
while the claim requires the recorded value never to be overwritten with an
excluded one. -/
theorem atis_db_lookup_case_bug :
    updateMemberFromLive [(42, c7Member)] [] [] true true [c7DbRow] none 5000
      42 "X" (some "OPKT_ATIS") =
      [(42, { c7Member with lastSeen := some 5000, lastCallsign := some "OPKC_atis" })] ∧
    findLastNonAtisCallsign [] [] true true [c7DbRow] 42 = some "OPKC_atis" ∧
    atisSuffix "OPKC_atis" = true ∧
    c7Member.lastCallsign = some "OPKR_CTR" ∧
    atisSuffix "OPKR_CTR" = false := by
  decide

/-- Counterexample to C8 as stated: a failing middle cycle terminates the
loop with exit status 1; the loop does not reach the third cycle and does
not run indefinitely. -/
theorem poll_failure_terminates_counterexample :
    pollLoop [Except.ok (), Except.error "feed timeout", Except.ok ()] = some 1 ∧
    pollLoop [Except.ok (), Except.error "feed timeout", Except.ok ()] ≠ none := by
  decide

/-- C8 amended: a cycle failure is caught inside runOnce (it never escapes
as an unhandled exception), but the catch block exits the process with
status 1 instead of continuing; the loop keeps running exactly as long as
every cycle succeeds. -/
theorem poll_failure_logged_then_exit (e : String)
    (rest cycles : List (Except String Unit)) :
    runOnceStep (Except.error e) = LoopStep.exitProcess 1 ∧
    runOnceStep (Except.ok ()) = LoopStep.next ∧
    pollLoop (Except.error e :: rest) = some 1 ∧
    (pollLoop cycles = none ↔ ∀ c ∈ cycles, c = Except.ok ()) := by
  refine ⟨rfl, rfl, rfl, ?_⟩
  induction cycles with
  | nil => simp [pollLoop]
  | cons c rest' ih =>
      cases c with
      | ok u =>
          cases u
          simp only [pollLoop, runOnceStep, List.mem_cons]
          rw [ih]
          constructor
          · intro h c' hc'
            rcases hc' with heq | hmem
            · rw [heq]
            · exact h c' hmem
          · intro h c' hc'
            exact h c' (Or.inr hc')
      | error e' =>
          simp [pollLoop, runOnceStep]

end PakVacc
